import Mathlib

/-
Verification of the `tilings` crate (src/lib.rs): generators for the three
regular and eight semi-regular tilings of the plane.

Embedding conventions, matching the Rust source:

* `VertexKey = u32`, and all face-key arithmetic in the source is u32
  arithmetic.  Keys are modelled as `Nat`; a generator returns `none`
  exactly when the u32 arithmetic of the corresponding Rust call traps
  (an arithmetic-overflow panic in a debug build).  Concretely:
  - the eagerly evaluated range bounds `rows - k` / `cols - k` are guarded
    (`u32` subtraction underflows when `rows < k`), following the source's
    lazy evaluation: an inner `cols - k` is only evaluated when the outer
    row range is non-empty;
  - `mkMesh` rejects a face list containing a key `≥ 2^32`: for the faces
    emitted by these generators every intermediate of the `+`/`*` key
    arithmetic is bounded by the final key value, and the `x - k` / `y - k`
    subtractions are kept non-negative by the iteration ranges, so a key
    value `≥ 2^32` is reached exactly when some u32 operation of the
    source overflows.
  In a release build the same operations wrap modulo 2^32 instead of
  trapping; where a claim depends on this difference it is discussed at
  the claim.

* `Point = uv::Vec2` (f32 storage, f64 internal arithmetic).  The
  coordinate formulas are modelled in exact arithmetic over `ℚ`; the
  source's constants `SQRT_3` (a literal) and `core::f64::consts::SQRT_2`
  are modelled by their decimal values.  Floating-point rounding is not
  modelled; none of the claims proved below depends on rounding, only on
  which function of `(x, y)` each coordinate is.  The source's bit-shifts
  `x >> 1`, `y >> 2` are written as the equal `x / 2`, `y / 4`, and the
  `(… as f64 / 2.0).floor()` of the hexagon tiling (applied to a
  non-negative integer) as natural division by 2.

* `(0..a)` / `(k..a)` Rust ranges are `rng k a` below; iterator
  `flat_map` / `filter_map ∘ flatten` over the per-cell emitted faces is
  `List.flatMap` of a per-cell face list, with `filter_map`'s `None`
  modelled by the empty list.
-/

/-- The literal `const SQRT_3: f64` of the source, as an exact rational. -/
def SQRT_3 : ℚ := 1.732050807568877293

/-- The value of `core::f64::consts::SQRT_2` (the f64 nearest √2), as a rational. -/
def SQRT_2 : ℚ := 1.4142135623730951

/-- `Point = uv::Vec2`: a 2D coordinate, modelled in exact arithmetic. -/
def Pt : Type := ℚ × ℚ

instance : DecidableEq Pt := instDecidableEqProd

/-- The Mesh record: `{ name, points, face_index }` as produced by every
generator (`SemiRegularTiling` / `RegularTiling` share the same shape). -/
structure Mesh where
  name : String
  points : List Pt
  faces : List (List Nat)
deriving DecidableEq

/-- The flat vertex key `x + y * cols` used by every face assembler. -/
def fkey (cols x y : Nat) : Nat := x + y * cols

/-- The Rust range `(a..b)` as a list. -/
def rng (a b : Nat) : List Nat := (List.range (b - a)).map (fun i => a + i)

/-- The point lattice: `(0..rows).flat_map(|y| (0..cols).map(move |x| pt(x, y)))`. -/
def grid (rows cols : Nat) (pt : Nat → Nat → Pt) : List Pt :=
  (List.range rows).flatMap (fun y => (List.range cols).map (fun x => pt x y))

/-- A face assembler's double loop: `(ya..yb).flat_map(|y| (xa..xb) … cell(x, y))`. -/
def faceGrid (cell : Nat → Nat → List (List Nat)) (ya yb xa xb : Nat) : List (List Nat) :=
  (rng ya yb).flatMap (fun y => (rng xa xb).flatMap (fun x => cell x y))

/-- `u32::MAX + 1`: the first key value at which the source's u32 key
arithmetic overflows. -/
def U32SIZE : Nat := 4294967296

/-- All keys of all faces fit in a u32 (no overflow trap in the key arithmetic). -/
def keysOK (fs : List (List Nat)) : Bool :=
  fs.all (fun f => f.all (fun k => k < U32SIZE))

/-- Packaging of a generator's output; `none` models the u32-overflow trap. -/
def mkMesh (name : String) (pts : List Pt) (fs : List (List Nat)) : Option Mesh :=
  if keysOK fs then some ⟨name, pts, fs⟩ else none

/-- The mesh of a successful generator call (junk default otherwise). -/
def mOf (o : Option Mesh) : Mesh := o.getD ⟨("-"), [], []⟩

/-- The face list of a generator call, empty for a trapped call. -/
def facesO (o : Option Mesh) : List (List Nat) := (mOf o).faces

/- ## Basic lemmas about the shared machinery -/

theorem mem_rng {a b n : Nat} : n ∈ rng a b ↔ a ≤ n ∧ n < b := by
  constructor
  · intro h
    rcases List.mem_map.1 h with ⟨i, hi, rfl⟩
    rw [List.mem_range] at hi
    omega
  · intro h
    refine List.mem_map.2 ⟨n - a, ?_, by omega⟩
    rw [List.mem_range]
    omega

theorem faceGrid_mem {cell : Nat → Nat → List (List Nat)} {ya yb xa xb : Nat}
    {f : List Nat} (h : f ∈ faceGrid cell ya yb xa xb) :
    ∃ x y, xa ≤ x ∧ x < xb ∧ ya ≤ y ∧ y < yb ∧ f ∈ cell x y := by
  unfold faceGrid at h
  rcases List.mem_flatMap.1 h with ⟨y, hy, h2⟩
  rcases List.mem_flatMap.1 h2 with ⟨x, hx, h3⟩
  rw [mem_rng] at hy hx
  exact ⟨x, y, hx.1, hx.2, hy.1, hy.2, h3⟩

theorem faceGrid_mem_intro (cell : Nat → Nat → List (List Nat)) (ya yb xa xb x y : Nat)
    (f : List Nat) (hy1 : ya ≤ y) (hy2 : y < yb) (hx1 : xa ≤ x) (hx2 : x < xb)
    (hf : f ∈ cell x y) : f ∈ faceGrid cell ya yb xa xb := by
  unfold faceGrid
  exact List.mem_flatMap.2 ⟨y, mem_rng.2 ⟨hy1, hy2⟩,
    List.mem_flatMap.2 ⟨x, mem_rng.2 ⟨hx1, hx2⟩, hf⟩⟩

theorem mkMesh_some {n : String} {p : List Pt} {fs : List (List Nat)} {m : Mesh}
    (h : mkMesh n p fs = some m) : m.name = n ∧ m.points = p ∧ m.faces = fs := by
  unfold mkMesh at h
  split_ifs at h
  cases h
  exact ⟨rfl, rfl, rfl⟩

theorem mkMesh_none {n : String} {p : List Pt} {fs : List (List Nat)}
    (h : keysOK fs = false) : mkMesh n p fs = none := by
  unfold mkMesh
  rw [h]
  rfl

theorem fkey_lt {rows cols x y : Nat} (hx : x < cols) (hy : y < rows) :
    fkey cols x y < rows * cols := by
  unfold fkey
  calc x + y * cols < cols + y * cols := by omega
  _ = (y + 1) * cols := by ring
  _ ≤ rows * cols := Nat.mul_le_mul_right _ (by omega)

theorem fkey_inj {cols x1 y1 x2 y2 : Nat} (h1 : x1 < cols) (h2 : x2 < cols)
    (h : fkey cols x1 y1 = fkey cols x2 y2) : x1 = x2 ∧ y1 = y2 := by
  unfold fkey at h
  have hc : 0 < cols := by omega
  have hm : x1 = x2 := by
    have e1 := Nat.add_mul_mod_self_right x1 y1 cols
    have e2 := Nat.add_mul_mod_self_right x2 y2 cols
    rw [Nat.mod_eq_of_lt h1] at e1
    rw [Nat.mod_eq_of_lt h2] at e2
    rw [← e1, ← e2, h]
  have hd : y1 = y2 := by
    have e1 := Nat.add_mul_div_right x1 y1 hc
    have e2 := Nat.add_mul_div_right x2 y2 hc
    rw [Nat.div_eq_of_lt h1] at e1
    rw [Nat.div_eq_of_lt h2] at e2
    have := h ▸ e1
    omega
  exact ⟨hm, hd⟩

theorem fkey_ne {cols x1 y1 x2 y2 : Nat} (h1 : x1 < cols) (h2 : x2 < cols)
    (h3 : ¬(x1 = x2 ∧ y1 = y2)) : fkey cols x1 y1 ≠ fkey cols x2 y2 :=
  fun h => h3 (fkey_inj h1 h2 h)

theorem length_grid (rows cols : Nat) (pt : Nat → Nat → Pt) :
    (grid rows cols pt).length = rows * cols := by
  induction rows with
  | zero => simp [grid]
  | succ r ih =>
    unfold grid at ih ⊢
    rw [List.range_succ, List.flatMap_append]
    simp only [List.length_append, ih, List.flatMap_cons, List.flatMap_nil,
      List.append_nil, List.length_map, List.length_range]
    ring

theorem grid_getElem {rows cols x y : Nat} (pt : Nat → Nat → Pt)
    (hx : x < cols) (hy : y < rows) :
    (grid rows cols pt)[x + y * cols]? = some (pt x y) := by
  induction rows with
  | zero => omega
  | succ r ih =>
    have hgrid : grid (r + 1) cols pt
        = grid r cols pt ++ (List.range cols).map (fun xx => pt xx r) := by
      unfold grid
      rw [List.range_succ, List.flatMap_append]
      simp
    rw [hgrid]
    rcases Nat.lt_or_ge y r with hyr | hyr
    · rw [List.getElem?_append_left (by rw [length_grid]; exact fkey_lt hx hyr)]
      exact ih hyr
    · have hyeq : y = r := by omega
      subst hyeq
      rw [List.getElem?_append_right (by rw [length_grid]; omega)]
      rw [length_grid]
      have hix : x + y * cols - y * cols = x := by omega
      rw [hix, List.getElem?_map, List.getElem?_range hx]
      rfl

/- ## The semi-regular tilings (`impl SemiRegularTiling`) -/

namespace SemiRegularTiling

/-- Point formula of `SemiRegularTiling::one`:
`(x + 0.5*y, (y * SQRT_3) * 0.5)`. -/
def onePoint (x y : Nat) : Pt :=
  ((x : ℚ) + 0.5 * (y : ℚ), ((y : ℚ) * SQRT_3) * 0.5)

/-- Per-cell faces of `SemiRegularTiling::one`.  The source binds
`i = (x + 3*y) % 7` and tests `i == 0 || i == 2 || i >= 5`,
`i == 2 || i >= 4`, `i == 4`; the binding is inlined here. -/
def oneCell (cols x y : Nat) : List (List Nat) :=
  (if (x + 3 * y) % 7 = 0 ∨ (x + 3 * y) % 7 = 2 ∨ 5 ≤ (x + 3 * y) % 7 then
    [[fkey cols (x + 0) (y + 0), fkey cols (x + 1) (y + 0), fkey cols (x + 0) (y + 1)]]
   else [])
  ++ (if (x + 3 * y) % 7 = 2 ∨ 4 ≤ (x + 3 * y) % 7 then
    [[fkey cols (x + 1) (y + 0), fkey cols (x + 1) (y + 1), fkey cols (x + 0) (y + 1)]]
   else [])
  ++ (if (x + 3 * y) % 7 = 4 then
    [[fkey cols (x + 1) (y + 0), fkey cols (x + 0) (y + 1), fkey cols (x - 1) (y + 1),
      fkey cols (x - 1) (y + 0), fkey cols (x + 0) (y - 1), fkey cols (x + 1) (y - 1)]]
   else [])

/-- `SemiRegularTiling::one(rows, cols)`.  Face loops: `(1..rows-1)`, `(1..cols-1)`. -/
def one (rows cols : Nat) : Option Mesh :=
  if rows < 1 then none
  else if rows - 1 ≤ 1 then mkMesh ("SEMI-REGULAR-1") (grid rows cols onePoint) []
  else if cols < 1 then none
  else mkMesh ("SEMI-REGULAR-1") (grid rows cols onePoint)
    (faceGrid (oneCell cols) 1 (rows - 1) 1 (cols - 1))

/-- Point formula of `SemiRegularTiling::two`. -/
def twoPoint (x y : Nat) : Pt :=
  (((x / 2 : Nat) : ℚ) * (2 + SQRT_2) + ((x % 2 : Nat) : ℚ)
      + ((y / 2 : Nat) : ℚ) * (1 + SQRT_2 * 0.5),
    ((y / 2 : Nat) : ℚ) * (1 + SQRT_2 * 0.5) + ((y % 2 : Nat) : ℚ))

/-- First face rule of `SemiRegularTiling::two` (the octagons): emitted
when `x % 2 == 1 && y % 2 == 0`. -/
def twoCellA (cols x y : Nat) : List (List Nat) :=
  if x % 2 = 1 ∧ y % 2 = 0 then
    [[fkey cols (x + 0) (y + 0), fkey cols (x + 1) (y - 1), fkey cols (x + 2) (y - 1),
      fkey cols (x + 1) (y + 0), fkey cols (x + 1) (y + 1), fkey cols (x + 0) (y + 2),
      fkey cols (x - 1) (y + 2), fkey cols (x + 0) (y + 1)]]
  else []

/-- Second (chained) face rule of `SemiRegularTiling::two` (the squares):
emitted when `x % 2 == 0 && y % 2 == 0`. -/
def twoCellB (cols x y : Nat) : List (List Nat) :=
  if x % 2 = 0 ∧ y % 2 = 0 then
    [[fkey cols (x + 0) (y + 0), fkey cols (x + 1) (y + 0),
      fkey cols (x + 1) (y + 1), fkey cols (x + 0) (y + 1)]]
  else []

/-- `SemiRegularTiling::two(rows, cols)`.  The face index chains the
octagon loop `(1..rows-2) × (1..cols-2)` and the square loop
`(0..rows-1) × (0..cols-1)`; both outer bounds are built eagerly (they
cannot underflow once `rows ≥ 2`), and an inner `cols - k` is evaluated
exactly when the respective outer range is non-empty — the square loop's
outer range `(0..rows-1)` is non-empty whenever `rows ≥ 2`, so its
`cols - 1` always runs; the octagon loop's `cols - 2` only runs when
`1 < rows - 2`. -/
def two (rows cols : Nat) : Option Mesh :=
  if rows < 2 then none
  else if rows - 2 ≤ 1 then
    if cols < 1 then none
    else mkMesh ("SEMI-REGULAR-2") (grid rows cols twoPoint)
      (faceGrid (twoCellB cols) 0 (rows - 1) 0 (cols - 1))
  else if cols < 2 then none
  else mkMesh ("SEMI-REGULAR-2") (grid rows cols twoPoint)
    (faceGrid (twoCellA cols) 1 (rows - 2) 1 (cols - 2)
      ++ faceGrid (twoCellB cols) 0 (rows - 1) 0 (cols - 1))

/-- Point formula of `SemiRegularTiling::three`. -/
def threePoint (x y : Nat) : Pt :=
  ((x : ℚ) + 0.5 * ((y / 2 : Nat) : ℚ),
    ((y / 2 : Nat) : ℚ) * (1 + SQRT_3 * 0.5) + ((y % 2 : Nat) : ℚ))

/-- Per-cell faces of `SemiRegularTiling::three`: a square on even rows,
two triangles on odd rows. -/
def threeCell (cols x y : Nat) : List (List Nat) :=
  if y % 2 = 0 then
    [[fkey cols (x + 0) (y + 0), fkey cols (x + 1) (y + 0),
      fkey cols (x + 1) (y + 1), fkey cols (x + 0) (y + 1)]]
  else
    [[fkey cols (x + 0) (y + 0), fkey cols (x + 1) (y + 0), fkey cols (x + 0) (y + 1)],
     [fkey cols (x + 1) (y + 0), fkey cols (x + 1) (y + 1), fkey cols (x + 0) (y + 1)]]

/-- `SemiRegularTiling::three(rows, cols)`.  Face loops: `(0..rows-1)`, `(0..cols-1)`. -/
def three (rows cols : Nat) : Option Mesh :=
  if rows < 1 then none
  else if rows - 1 = 0 then mkMesh ("SEMI-REGULAR-3") (grid rows cols threePoint) []
  else if cols < 1 then none
  else mkMesh ("SEMI-REGULAR-3") (grid rows cols threePoint)
    (faceGrid (threeCell cols) 0 (rows - 1) 0 (cols - 1))

/-- Point formula of `SemiRegularTiling::four` (same lattice as `one`). -/
def fourPoint (x y : Nat) : Pt :=
  ((x : ℚ) + 0.5 * (y : ℚ), ((y : ℚ) * SQRT_3) * 0.5)

/-- Per-cell faces of `SemiRegularTiling::four`, keyed by the parities of x and y. -/
def fourCell (cols x y : Nat) : List (List Nat) :=
  (if x % 2 = 0 ∧ y % 2 = 0 then
    [[fkey cols (x + 0) (y + 0), fkey cols (x + 1) (y + 0), fkey cols (x + 0) (y + 1)]]
   else [])
  ++ (if x % 2 = 0 ∧ y % 2 = 1 then
    [[fkey cols (x + 0) (y + 0), fkey cols (x + 0) (y + 1), fkey cols (x - 1) (y + 1)]]
   else [])
  ++ (if x % 2 = 1 ∧ y % 2 = 0 then
    [[fkey cols (x + 0) (y + 0), fkey cols (x + 1) (y + 0), fkey cols (x + 1) (y + 1),
      fkey cols (x + 0) (y + 2), fkey cols (x - 1) (y + 2), fkey cols (x - 1) (y + 1)]]
   else [])

/-- `SemiRegularTiling::four(rows, cols)`.  Face loops: `(1..rows-2)`, `(1..cols-1)`. -/
def four (rows cols : Nat) : Option Mesh :=
  if rows < 2 then none
  else if rows - 2 ≤ 1 then mkMesh ("SEMI-REGULAR-4") (grid rows cols fourPoint) []
  else if cols < 1 then none
  else mkMesh ("SEMI-REGULAR-4") (grid rows cols fourPoint)
    (faceGrid (fourCell cols) 1 (rows - 2) 1 (cols - 1))

/-- Point formula of `SemiRegularTiling::five`. -/
def fivePoint (x y : Nat) : Pt :=
  (((x / 2 : Nat) : ℚ) * (1 + SQRT_3 * 0.5) + ((x % 2 : Nat) : ℚ)
      - ((y / 2 : Nat) : ℚ) * 0.5,
    ((y / 2 : Nat) : ℚ) * (1 + SQRT_3 * 0.5) + ((y % 2 : Nat) : ℚ)
      + ((x / 2 : Nat) : ℚ) * 0.5)

/-- Per-cell faces of `SemiRegularTiling::five`, keyed by the parities of x and y. -/
def fiveCell (cols x y : Nat) : List (List Nat) :=
  (if x % 2 = 0 ∧ y % 2 = 0 then
    [[fkey cols (x + 0) (y + 0), fkey cols (x + 1) (y + 0),
      fkey cols (x + 1) (y + 1), fkey cols (x + 0) (y + 1)],
     [fkey cols (x + 0) (y + 0), fkey cols (x + 0) (y + 1), fkey cols (x - 1) (y + 1)]]
   else [])
  ++ (if x % 2 = 1 ∧ y % 2 = 0 then
    [[fkey cols (x + 0) (y + 0), fkey cols (x + 1) (y + 0), fkey cols (x + 0) (y + 1)]]
   else [])
  ++ (if x % 2 = 0 ∧ y % 2 = 1 then
    [[fkey cols (x + 0) (y + 0), fkey cols (x + 1) (y + 0), fkey cols (x + 1) (y + 1)],
     [fkey cols (x + 0) (y + 0), fkey cols (x + 1) (y + 1), fkey cols (x + 0) (y + 1)]]
   else [])
  ++ (if x % 2 = 1 ∧ y % 2 = 1 then
    [[fkey cols (x + 0) (y + 0), fkey cols (x + 1) (y + 0),
      fkey cols (x + 1) (y + 1), fkey cols (x + 0) (y + 1)]]
   else [])

/-- `SemiRegularTiling::five(rows, cols)`.  Face loops: `(0..rows-1)`, `(1..cols-1)`. -/
def five (rows cols : Nat) : Option Mesh :=
  if rows < 1 then none
  else if rows - 1 = 0 then mkMesh ("SEMI-REGULAR-5") (grid rows cols fivePoint) []
  else if cols < 1 then none
  else mkMesh ("SEMI-REGULAR-5") (grid rows cols fivePoint)
    (faceGrid (fiveCell cols) 0 (rows - 1) 1 (cols - 1))

/-- Point formula of `SemiRegularTiling::six` (`x >> 1`, `y >> 2`,
then per-`y % 4` offsets). -/
def sixPoint (x y : Nat) : Pt :=
  let px : ℚ := ((x / 2 : Nat) : ℚ) * (2 + SQRT_3) + ((x % 2 : Nat) : ℚ)
      + ((y / 4 : Nat) : ℚ) * (1 + SQRT_3 * 0.5)
  let py : ℚ := ((y / 4 : Nat) : ℚ) * (1.5 + SQRT_3)
  if y % 4 = 0 then (px, py)
  else if y % 4 = 1 then (px + 0.5, py + SQRT_3 * 0.5)
  else if y % 4 = 2 then (px + 0.5, py + 1 + SQRT_3 * 0.5)
  else (px, py + 1 + SQRT_3)

/-- Per-cell faces of `SemiRegularTiling::six`: a dodecagon and a triangle
when `x % 2 == 0 && y % 4 == 0`, a triangle when `x % 2 == 0 && y % 4 == 2`. -/
def sixCell (cols x y : Nat) : List (List Nat) :=
  (if x % 2 = 0 ∧ y % 4 = 0 then
    [[fkey cols (x + 1) (y + 0), fkey cols (x + 2) (y - 1), fkey cols (x + 3) (y - 1),
      fkey cols (x + 2) (y + 0), fkey cols (x + 2) (y + 1), fkey cols (x + 2) (y + 2),
      fkey cols (x + 2) (y + 3), fkey cols (x + 1) (y + 4), fkey cols (x + 0) (y + 4),
      fkey cols (x + 1) (y + 3), fkey cols (x + 0) (y + 2), fkey cols (x + 0) (y + 1)],
     [fkey cols (x + 0) (y + 0), fkey cols (x + 1) (y + 0), fkey cols (x + 0) (y + 1)]]
   else [])
  ++ (if x % 2 = 0 ∧ y % 4 = 2 then
    [[fkey cols (x + 0) (y + 0), fkey cols (x + 1) (y + 1), fkey cols (x + 0) (y + 1)]]
   else [])

/-- `SemiRegularTiling::six(rows, cols)`.  Face loops: `(1..rows-4)`, `(0..cols-3)`. -/
def six (rows cols : Nat) : Option Mesh :=
  if rows < 4 then none
  else if rows - 4 ≤ 1 then mkMesh ("SEMI-REGULAR-6") (grid rows cols sixPoint) []
  else if cols < 3 then none
  else mkMesh ("SEMI-REGULAR-6") (grid rows cols sixPoint)
    (faceGrid (sixCell cols) 1 (rows - 4) 0 (cols - 3))

/-- Point formula of `SemiRegularTiling::seven` (`x >> 1`, `y >> 2`,
then per-`y % 4` offsets). -/
def sevenPoint (x y : Nat) : Pt :=
  let px : ℚ := ((x / 2 : Nat) : ℚ) * (1 + SQRT_3) + ((x % 2 : Nat) : ℚ) * SQRT_3
      + ((y / 4 : Nat) : ℚ) * (0.5 + SQRT_3 * 0.5)
  let py : ℚ := ((y / 4 : Nat) : ℚ) * (1.5 + SQRT_3 * 0.5)
  if y % 4 = 0 then (px + SQRT_3 * 0.5, py - 0.5)
  else if y % 4 = 1 then (px, py)
  else if y % 4 = 2 then (px, py + 1)
  else (px + SQRT_3 * 0.5, py + 1.5)

/-- Per-cell faces of `SemiRegularTiling::seven`, keyed by `x % 2` and `y % 4`. -/
def sevenCell (cols x y : Nat) : List (List Nat) :=
  (if x % 2 = 0 ∧ y % 4 = 0 then
    [[fkey cols (x + 0) (y + 0), fkey cols (x + 1) (y + 1), fkey cols (x + 1) (y + 2),
      fkey cols (x + 0) (y + 3), fkey cols (x + 0) (y + 2), fkey cols (x + 0) (y + 1)],
     [fkey cols (x + 0) (y + 0), fkey cols (x + 2) (y - 2), fkey cols (x + 2) (y - 1),
      fkey cols (x + 1) (y + 1)],
     [fkey cols (x + 1) (y + 1), fkey cols (x + 2) (y - 1), fkey cols (x + 2) (y + 1)]]
   else [])
  ++ (if x % 2 = 1 ∧ y % 4 = 1 then
    [[fkey cols (x + 0) (y + 0), fkey cols (x + 1) (y + 0),
      fkey cols (x + 1) (y + 1), fkey cols (x + 0) (y + 1)]]
   else [])
  ++ (if x % 2 = 1 ∧ y % 4 = 2 then
    [[fkey cols (x + 0) (y + 0), fkey cols (x - 1) (y + 2),
      fkey cols (x - 1) (y + 3), fkey cols (x - 1) (y + 1)]]
   else [])
  ++ (if x % 2 = 0 ∧ y % 4 = 2 then
    [[fkey cols (x - 1) (y + 0), fkey cols (x + 0) (y + 0), fkey cols (x - 2) (y + 2)]]
   else [])

/-- `SemiRegularTiling::seven(rows, cols)`.  Face loops: `(2..rows-3)`, `(2..cols-2)`. -/
def seven (rows cols : Nat) : Option Mesh :=
  if rows < 3 then none
  else if rows - 3 ≤ 2 then mkMesh ("SEMI-REGULAR-7") (grid rows cols sevenPoint) []
  else if cols < 2 then none
  else mkMesh ("SEMI-REGULAR-7") (grid rows cols sevenPoint)
    (faceGrid (sevenCell cols) 2 (rows - 3) 2 (cols - 2))

/-- Point formula of `SemiRegularTiling::eight` (`x >> 2`, `y >> 2`,
per-`y % 4` offsets, then per-`x % 4` offsets on px). -/
def eightPoint (x y : Nat) : Pt :=
  let px : ℚ := ((x / 4 : Nat) : ℚ) * (3 + 3 * SQRT_3)
      + ((y / 4 : Nat) : ℚ) * (1.5 + 1.5 * SQRT_3)
  let py : ℚ := ((y / 4 : Nat) : ℚ) * (1.5 + SQRT_3 * 0.5)
  let p2 : ℚ × ℚ :=
    if y % 4 = 0 then (px + SQRT_3 * 0.5, py - 0.5)
    else if y % 4 = 1 then (px, py)
    else if y % 4 = 2 then (px, py + 1)
    else (px + SQRT_3 * 0.5, py + 1.5)
  if x % 4 = 0 then p2
  else if x % 4 = 1 then (p2.1 + SQRT_3, p2.2)
  else if x % 4 = 2 then (p2.1 + 1 + SQRT_3, p2.2)
  else (p2.1 + 1 + 2 * SQRT_3, p2.2)

/-- Per-cell faces of `SemiRegularTiling::eight`, keyed by `x % 2`/`x % 4`
and `y % 4`. -/
def eightCell (cols x y : Nat) : List (List Nat) :=
  (if x % 2 = 0 ∧ y % 4 = 0 then
    [[fkey cols (x + 0) (y + 0), fkey cols (x + 1) (y + 1), fkey cols (x + 1) (y + 2),
      fkey cols (x + 0) (y + 3), fkey cols (x + 0) (y + 2), fkey cols (x + 0) (y + 1)]]
   else [])
  ++ (if x % 4 = 1 ∧ y % 4 = 1 then
    [[fkey cols (x + 0) (y + 0), fkey cols (x + 1) (y + 0),
      fkey cols (x + 1) (y + 1), fkey cols (x + 0) (y + 1)]]
   else [])
  ++ (if x % 4 = 3 ∧ y % 4 = 2 then
    [[fkey cols (x + 0) (y + 0), fkey cols (x - 3) (y + 2),
      fkey cols (x - 3) (y + 3), fkey cols (x - 1) (y + 1)]]
   else [])
  ++ (if x % 4 = 0 ∧ y % 4 = 2 then
    [[fkey cols (x + 0) (y + 1), fkey cols (x - 1) (y + 3),
      fkey cols (x - 2) (y + 2), fkey cols (x + 0) (y + 0)]]
   else [])
  ++ (if x % 4 = 3 ∧ y % 4 = 1 then
    [[fkey cols (x + 0) (y + 0), fkey cols (x + 1) (y - 2), fkey cols (x + 2) (y - 3),
      fkey cols (x + 3) (y - 3), fkey cols (x + 3) (y - 2), fkey cols (x + 1) (y + 0),
      fkey cols (x + 1) (y + 1), fkey cols (x - 1) (y + 3), fkey cols (x - 1) (y + 4),
      fkey cols (x - 2) (y + 4), fkey cols (x - 3) (y + 3), fkey cols (x + 0) (y + 1)]]
   else [])

/-- `SemiRegularTiling::eight(rows, cols)`.  Face loops: `(3..rows-4)`, `(3..cols-3)`. -/
def eight (rows cols : Nat) : Option Mesh :=
  if rows < 4 then none
  else if rows - 4 ≤ 3 then mkMesh ("SEMI-REGULAR-8") (grid rows cols eightPoint) []
  else if cols < 3 then none
  else mkMesh ("SEMI-REGULAR-8") (grid rows cols eightPoint)
    (faceGrid (eightCell cols) 3 (rows - 4) 3 (cols - 3))

end SemiRegularTiling

/- ## The regular tilings (`impl RegularTiling`) -/

namespace RegularTiling

/-- Point formula of `RegularTiling::triangle`:
`(x + 0.5*y, y * SQRT_3 * 0.5)`. -/
def trianglePoint (x y : Nat) : Pt :=
  ((x : ℚ) + 0.5 * (y : ℚ), (y : ℚ) * SQRT_3 * 0.5)

/-- Per-cell faces of `RegularTiling::triangle`: two triangles per cell. -/
def triangleCell (cols x y : Nat) : List (List Nat) :=
  [[fkey cols (x + 0) (y + 0), fkey cols (x + 1) (y + 0), fkey cols (x + 0) (y + 1)],
   [fkey cols (x + 1) (y + 0), fkey cols (x + 1) (y + 1), fkey cols (x + 0) (y + 1)]]

/-- `RegularTiling::triangle(rows, cols)`.  Face loops: `(0..rows-1)`, `(0..cols-1)`. -/
def triangle (rows cols : Nat) : Option Mesh :=
  if rows < 1 then none
  else if rows - 1 = 0 then mkMesh ("TRIANGLE") (grid rows cols trianglePoint) []
  else if cols < 1 then none
  else mkMesh ("TRIANGLE") (grid rows cols trianglePoint)
    (faceGrid (triangleCell cols) 0 (rows - 1) 0 (cols - 1))

/-- Point formula of `RegularTiling::square`: `(x, y)`. -/
def squarePoint (x y : Nat) : Pt := ((x : ℚ), (y : ℚ))

/-- Per-cell face of `RegularTiling::square`: one unit square per cell. -/
def squareCell (cols x y : Nat) : List (List Nat) :=
  [[fkey cols (x + 0) (y + 0), fkey cols (x + 1) (y + 0),
    fkey cols (x + 1) (y + 1), fkey cols (x + 0) (y + 1)]]

/-- `RegularTiling::square(rows, cols)`.  Face loops: `(0..rows-1)`, `(0..cols-1)`. -/
def square (rows cols : Nat) : Option Mesh :=
  if rows < 1 then none
  else if rows - 1 = 0 then mkMesh ("SQUARE") (grid rows cols squarePoint) []
  else if cols < 1 then none
  else mkMesh ("SQUARE") (grid rows cols squarePoint)
    (faceGrid (squareCell cols) 0 (rows - 1) 0 (cols - 1))

/-- Point formula of `RegularTiling::hexagon`:
`(floor((x + y%2)/2) * 3 + (x+y)%2 - (y%2)*1.5, y * SQRT_3 * 0.5)`. -/
def hexagonPoint (x y : Nat) : Pt :=
  ((((x + y % 2) / 2 : Nat) : ℚ) * 3 + (((x + y) % 2 : Nat) : ℚ)
      - ((y % 2 : Nat) : ℚ) * 1.5,
    (y : ℚ) * SQRT_3 * 0.5)

/-- Per-cell face of `RegularTiling::hexagon`: a hexagon when
`(y%2 == 0 && x%2 == 0) || (y%2 == 1 && x%2 == 1)`. -/
def hexagonCell (cols x y : Nat) : List (List Nat) :=
  if (y % 2 = 0 ∧ x % 2 = 0) ∨ (y % 2 = 1 ∧ x % 2 = 1) then
    [[fkey cols (x + 0) (y + 0), fkey cols (x + 1) (y + 0),
      fkey cols (x + 1) (y + 1), fkey cols (x + 1) (y + 2),
      fkey cols (x + 0) (y + 2), fkey cols (x + 0) (y + 1)]]
  else []

/-- `RegularTiling::hexagon(rows, cols)`.  Face loops: `(0..rows-2)`, `(0..cols-1)`. -/
def hexagon (rows cols : Nat) : Option Mesh :=
  if rows < 2 then none
  else if rows - 2 = 0 then mkMesh ("HEXAGON") (grid rows cols hexagonPoint) []
  else if cols < 1 then none
  else mkMesh ("HEXAGON") (grid rows cols hexagonPoint)
    (faceGrid (hexagonCell cols) 0 (rows - 2) 0 (cols - 1))

end RegularTiling

/- ## Structure of successful generator calls -/

namespace SemiRegularTiling

theorem one_some {rows cols : Nat} {m : Mesh} (h : one rows cols = some m) :
    m.name = ("SEMI-REGULAR-1") ∧ m.points = grid rows cols onePoint ∧
    ∀ f ∈ m.faces, ∃ x y, 1 ≤ x ∧ x < cols - 1 ∧ 1 ≤ y ∧ y < rows - 1 ∧
      f ∈ oneCell cols x y := by
  unfold one at h
  split_ifs at h with h1 h2 h3
  · obtain ⟨e1, e2, e3⟩ := mkMesh_some h
    refine ⟨e1, e2, ?_⟩
    rw [e3]
    intro f hf
    exact absurd hf (List.not_mem_nil f)
  · obtain ⟨e1, e2, e3⟩ := mkMesh_some h
    refine ⟨e1, e2, ?_⟩
    rw [e3]
    intro f hf
    obtain ⟨x, y, hx1, hx2, hy1, hy2, hc⟩ := faceGrid_mem hf
    exact ⟨x, y, hx1, hx2, hy1, hy2, hc⟩

theorem two_some {rows cols : Nat} {m : Mesh} (h : two rows cols = some m) :
    m.name = ("SEMI-REGULAR-2") ∧ m.points = grid rows cols twoPoint ∧
    ∀ f ∈ m.faces,
      (∃ x y, 1 ≤ x ∧ x < cols - 2 ∧ 1 ≤ y ∧ y < rows - 2 ∧ f ∈ twoCellA cols x y) ∨
      (∃ x y, x < cols - 1 ∧ y < rows - 1 ∧ f ∈ twoCellB cols x y) := by
  unfold two at h
  split_ifs at h with h1 h2 h3 h4
  · obtain ⟨e1, e2, e3⟩ := mkMesh_some h
    refine ⟨e1, e2, ?_⟩
    rw [e3]
    intro f hf
    obtain ⟨x, y, hx1, hx2, hy1, hy2, hc⟩ := faceGrid_mem hf
    exact Or.inr ⟨x, y, hx2, hy2, hc⟩
  · obtain ⟨e1, e2, e3⟩ := mkMesh_some h
    refine ⟨e1, e2, ?_⟩
    rw [e3]
    intro f hf
    rcases List.mem_append.1 hf with hf | hf
    · obtain ⟨x, y, hx1, hx2, hy1, hy2, hc⟩ := faceGrid_mem hf
      exact Or.inl ⟨x, y, hx1, hx2, hy1, hy2, hc⟩
    · obtain ⟨x, y, hx1, hx2, hy1, hy2, hc⟩ := faceGrid_mem hf
      exact Or.inr ⟨x, y, hx2, hy2, hc⟩

theorem three_some {rows cols : Nat} {m : Mesh} (h : three rows cols = some m) :
    m.name = ("SEMI-REGULAR-3") ∧ m.points = grid rows cols threePoint ∧
    ∀ f ∈ m.faces, ∃ x y, x < cols - 1 ∧ y < rows - 1 ∧ f ∈ threeCell cols x y := by
  unfold three at h
  split_ifs at h with h1 h2 h3
  · obtain ⟨e1, e2, e3⟩ := mkMesh_some h
    refine ⟨e1, e2, ?_⟩
    rw [e3]
    intro f hf
    exact absurd hf (List.not_mem_nil f)
  · obtain ⟨e1, e2, e3⟩ := mkMesh_some h
    refine ⟨e1, e2, ?_⟩
    rw [e3]
    intro f hf
    obtain ⟨x, y, hx1, hx2, hy1, hy2, hc⟩ := faceGrid_mem hf
    exact ⟨x, y, hx2, hy2, hc⟩

theorem four_some {rows cols : Nat} {m : Mesh} (h : four rows cols = some m) :
    m.name = ("SEMI-REGULAR-4") ∧ m.points = grid rows cols fourPoint ∧
    ∀ f ∈ m.faces, ∃ x y, 1 ≤ x ∧ x < cols - 1 ∧ 1 ≤ y ∧ y < rows - 2 ∧
      f ∈ fourCell cols x y := by
  unfold four at h
  split_ifs at h with h1 h2 h3
  · obtain ⟨e1, e2, e3⟩ := mkMesh_some h
    refine ⟨e1, e2, ?_⟩
    rw [e3]
    intro f hf
    exact absurd hf (List.not_mem_nil f)
  · obtain ⟨e1, e2, e3⟩ := mkMesh_some h
    refine ⟨e1, e2, ?_⟩
    rw [e3]
    intro f hf
    obtain ⟨x, y, hx1, hx2, hy1, hy2, hc⟩ := faceGrid_mem hf
    exact ⟨x, y, hx1, hx2, hy1, hy2, hc⟩

theorem five_some {rows cols : Nat} {m : Mesh} (h : five rows cols = some m) :
    m.name = ("SEMI-REGULAR-5") ∧ m.points = grid rows cols fivePoint ∧
    ∀ f ∈ m.faces, ∃ x y, 1 ≤ x ∧ x < cols - 1 ∧ y < rows - 1 ∧
      f ∈ fiveCell cols x y := by
  unfold five at h
  split_ifs at h with h1 h2 h3
  · obtain ⟨e1, e2, e3⟩ := mkMesh_some h
    refine ⟨e1, e2, ?_⟩
    rw [e3]
    intro f hf
    exact absurd hf (List.not_mem_nil f)
  · obtain ⟨e1, e2, e3⟩ := mkMesh_some h
    refine ⟨e1, e2, ?_⟩
    rw [e3]
    intro f hf
    obtain ⟨x, y, hx1, hx2, hy1, hy2, hc⟩ := faceGrid_mem hf
    exact ⟨x, y, hx1, hx2, hy2, hc⟩

theorem six_some {rows cols : Nat} {m : Mesh} (h : six rows cols = some m) :
    m.name = ("SEMI-REGULAR-6") ∧ m.points = grid rows cols sixPoint ∧
    ∀ f ∈ m.faces, ∃ x y, x < cols - 3 ∧ 1 ≤ y ∧ y < rows - 4 ∧
      f ∈ sixCell cols x y := by
  unfold six at h
  split_ifs at h with h1 h2 h3
  · obtain ⟨e1, e2, e3⟩ := mkMesh_some h
    refine ⟨e1, e2, ?_⟩
    rw [e3]
    intro f hf
    exact absurd hf (List.not_mem_nil f)
  · obtain ⟨e1, e2, e3⟩ := mkMesh_some h
    refine ⟨e1, e2, ?_⟩
    rw [e3]
    intro f hf
    obtain ⟨x, y, hx1, hx2, hy1, hy2, hc⟩ := faceGrid_mem hf
    exact ⟨x, y, hx2, hy1, hy2, hc⟩

theorem seven_some {rows cols : Nat} {m : Mesh} (h : seven rows cols = some m) :
    m.name = ("SEMI-REGULAR-7") ∧ m.points = grid rows cols sevenPoint ∧
    ∀ f ∈ m.faces, ∃ x y, 2 ≤ x ∧ x < cols - 2 ∧ 2 ≤ y ∧ y < rows - 3 ∧
      f ∈ sevenCell cols x y := by
  unfold seven at h
  split_ifs at h with h1 h2 h3
  · obtain ⟨e1, e2, e3⟩ := mkMesh_some h
    refine ⟨e1, e2, ?_⟩
    rw [e3]
    intro f hf
    exact absurd hf (List.not_mem_nil f)
  · obtain ⟨e1, e2, e3⟩ := mkMesh_some h
    refine ⟨e1, e2, ?_⟩
    rw [e3]
    intro f hf
    obtain ⟨x, y, hx1, hx2, hy1, hy2, hc⟩ := faceGrid_mem hf
    exact ⟨x, y, hx1, hx2, hy1, hy2, hc⟩

theorem eight_some {rows cols : Nat} {m : Mesh} (h : eight rows cols = some m) :
    m.name = ("SEMI-REGULAR-8") ∧ m.points = grid rows cols eightPoint ∧
    ∀ f ∈ m.faces, ∃ x y, 3 ≤ x ∧ x < cols - 3 ∧ 3 ≤ y ∧ y < rows - 4 ∧
      f ∈ eightCell cols x y := by
  unfold eight at h
  split_ifs at h with h1 h2 h3
  · obtain ⟨e1, e2, e3⟩ := mkMesh_some h
    refine ⟨e1, e2, ?_⟩
    rw [e3]
    intro f hf
    exact absurd hf (List.not_mem_nil f)
  · obtain ⟨e1, e2, e3⟩ := mkMesh_some h
    refine ⟨e1, e2, ?_⟩
    rw [e3]
    intro f hf
    obtain ⟨x, y, hx1, hx2, hy1, hy2, hc⟩ := faceGrid_mem hf
    exact ⟨x, y, hx1, hx2, hy1, hy2, hc⟩

end SemiRegularTiling

namespace RegularTiling

theorem triangle_some {rows cols : Nat} {m : Mesh} (h : triangle rows cols = some m) :
    m.name = ("TRIANGLE") ∧ m.points = grid rows cols trianglePoint ∧
    ∀ f ∈ m.faces, ∃ x y, x < cols - 1 ∧ y < rows - 1 ∧ f ∈ triangleCell cols x y := by
  unfold triangle at h
  split_ifs at h with h1 h2 h3
  · obtain ⟨e1, e2, e3⟩ := mkMesh_some h
    refine ⟨e1, e2, ?_⟩
    rw [e3]
    intro f hf
    exact absurd hf (List.not_mem_nil f)
  · obtain ⟨e1, e2, e3⟩ := mkMesh_some h
    refine ⟨e1, e2, ?_⟩
    rw [e3]
    intro f hf
    obtain ⟨x, y, hx1, hx2, hy1, hy2, hc⟩ := faceGrid_mem hf
    exact ⟨x, y, hx2, hy2, hc⟩

theorem square_some {rows cols : Nat} {m : Mesh} (h : square rows cols = some m) :
    m.name = ("SQUARE") ∧ m.points = grid rows cols squarePoint ∧
    ∀ f ∈ m.faces, ∃ x y, x < cols - 1 ∧ y < rows - 1 ∧ f ∈ squareCell cols x y := by
  unfold square at h
  split_ifs at h with h1 h2 h3
  · obtain ⟨e1, e2, e3⟩ := mkMesh_some h
    refine ⟨e1, e2, ?_⟩
    rw [e3]
    intro f hf
    exact absurd hf (List.not_mem_nil f)
  · obtain ⟨e1, e2, e3⟩ := mkMesh_some h
    refine ⟨e1, e2, ?_⟩
    rw [e3]
    intro f hf
    obtain ⟨x, y, hx1, hx2, hy1, hy2, hc⟩ := faceGrid_mem hf
    exact ⟨x, y, hx2, hy2, hc⟩

theorem hexagon_some {rows cols : Nat} {m : Mesh} (h : hexagon rows cols = some m) :
    m.name = ("HEXAGON") ∧ m.points = grid rows cols hexagonPoint ∧
    ∀ f ∈ m.faces, ∃ x y, x < cols - 1 ∧ y < rows - 2 ∧ f ∈ hexagonCell cols x y := by
  unfold hexagon at h
  split_ifs at h with h1 h2 h3
  · obtain ⟨e1, e2, e3⟩ := mkMesh_some h
    refine ⟨e1, e2, ?_⟩
    rw [e3]
    intro f hf
    exact absurd hf (List.not_mem_nil f)
  · obtain ⟨e1, e2, e3⟩ := mkMesh_some h
    refine ⟨e1, e2, ?_⟩
    rw [e3]
    intro f hf
    obtain ⟨x, y, hx1, hx2, hy1, hy2, hc⟩ := faceGrid_mem hf
    exact ⟨x, y, hx2, hy2, hc⟩

end RegularTiling

/- ## In-bounds and distinctness of the keys of every emitted face -/

/-- A face is well-formed for an `rows × cols` lattice: all keys in bounds,
and no key repeated. -/
def faceOK (rows cols : Nat) (f : List Nat) : Prop :=
  (∀ k ∈ f, k < rows * cols) ∧ List.Pairwise (fun a b => a ≠ b) f

/-- All faces of a face list are well-formed. -/
def FacesOK (rows cols : Nat) (fs : List (List Nat)) : Prop :=
  ∀ f ∈ fs, faceOK rows cols f

theorem FacesOK_nil (rows cols : Nat) (fs : List (List Nat)) (h : fs = []) :
    FacesOK rows cols fs := by
  subst h
  intro f hf
  exact absurd hf (List.not_mem_nil f)

namespace SemiRegularTiling

theorem oneCell_ok {rows cols x y : Nat} (hx1 : 1 ≤ x) (hx2 : x < cols - 1)
    (hy1 : 1 ≤ y) (hy2 : y < rows - 1) :
    ∀ f ∈ oneCell cols x y, faceOK rows cols f := by
  have hF1 : faceOK rows cols
      [fkey cols (x + 0) (y + 0), fkey cols (x + 1) (y + 0), fkey cols (x + 0) (y + 1)] := by
    constructor
    · intro k hk
      simp only [List.mem_cons, List.not_mem_nil, or_false] at hk
      rcases hk with rfl | rfl | rfl
      all_goals exact fkey_lt (by omega) (by omega)
    · simp [List.pairwise_cons]
      repeat' apply And.intro
      all_goals refine fkey_ne ?_ ?_ ?_ <;> omega
  have hF2 : faceOK rows cols
      [fkey cols (x + 1) (y + 0), fkey cols (x + 1) (y + 1), fkey cols (x + 0) (y + 1)] := by
    constructor
    · intro k hk
      simp only [List.mem_cons, List.not_mem_nil, or_false] at hk
      rcases hk with rfl | rfl | rfl
      all_goals exact fkey_lt (by omega) (by omega)
    · simp [List.pairwise_cons]
      repeat' apply And.intro
      all_goals refine fkey_ne ?_ ?_ ?_ <;> omega
  have hF3 : faceOK rows cols
      [fkey cols (x + 1) (y + 0), fkey cols (x + 0) (y + 1), fkey cols (x - 1) (y + 1),
       fkey cols (x - 1) (y + 0), fkey cols (x + 0) (y - 1), fkey cols (x + 1) (y - 1)] := by
    constructor
    · intro k hk
      simp only [List.mem_cons, List.not_mem_nil, or_false] at hk
      rcases hk with rfl | rfl | rfl | rfl | rfl | rfl
      all_goals exact fkey_lt (by omega) (by omega)
    · simp [List.pairwise_cons]
      repeat' apply And.intro
      all_goals refine fkey_ne ?_ ?_ ?_ <;> omega
  intro f hf
  have hsub : f = [fkey cols (x + 0) (y + 0), fkey cols (x + 1) (y + 0), fkey cols (x + 0) (y + 1)]
      ∨ f = [fkey cols (x + 1) (y + 0), fkey cols (x + 1) (y + 1), fkey cols (x + 0) (y + 1)]
      ∨ f = [fkey cols (x + 1) (y + 0), fkey cols (x + 0) (y + 1), fkey cols (x - 1) (y + 1),
             fkey cols (x - 1) (y + 0), fkey cols (x + 0) (y - 1), fkey cols (x + 1) (y - 1)] := by
    unfold oneCell at hf
    split_ifs at hf <;>
      simp only [List.mem_append, List.mem_cons, List.not_mem_nil, or_false,
        List.mem_singleton] at hf <;>
      tauto
  rcases hsub with rfl | rfl | rfl
  · exact hF1
  · exact hF2
  · exact hF3

theorem twoCellA_ok {rows cols x y : Nat} (hx1 : 1 ≤ x) (hx2 : x < cols - 2)
    (hy1 : 1 ≤ y) (hy2 : y < rows - 2) :
    ∀ f ∈ twoCellA cols x y, faceOK rows cols f := by
  intro f hf
  have hsub : f = [fkey cols (x + 0) (y + 0), fkey cols (x + 1) (y - 1), fkey cols (x + 2) (y - 1),
      fkey cols (x + 1) (y + 0), fkey cols (x + 1) (y + 1), fkey cols (x + 0) (y + 2),
      fkey cols (x - 1) (y + 2), fkey cols (x + 0) (y + 1)] := by
    unfold twoCellA at hf
    split_ifs at hf <;>
      simp only [List.mem_cons, List.not_mem_nil, or_false, List.mem_singleton] at hf <;>
      tauto
  subst hsub
  constructor
  · intro k hk
    simp only [List.mem_cons, List.not_mem_nil, or_false] at hk
    rcases hk with rfl | rfl | rfl | rfl | rfl | rfl | rfl | rfl
    all_goals exact fkey_lt (by omega) (by omega)
  · simp [List.pairwise_cons]
    repeat' apply And.intro
    all_goals refine fkey_ne ?_ ?_ ?_ <;> omega

theorem twoCellB_ok {rows cols x y : Nat} (hx2 : x < cols - 1) (hy2 : y < rows - 1) :
    ∀ f ∈ twoCellB cols x y, faceOK rows cols f := by
  intro f hf
  have hsub : f = [fkey cols (x + 0) (y + 0), fkey cols (x + 1) (y + 0),
      fkey cols (x + 1) (y + 1), fkey cols (x + 0) (y + 1)] := by
    unfold twoCellB at hf
    split_ifs at hf <;>
      simp only [List.mem_cons, List.not_mem_nil, or_false, List.mem_singleton] at hf <;>
      tauto
  subst hsub
  constructor
  · intro k hk
    simp only [List.mem_cons, List.not_mem_nil, or_false] at hk
    rcases hk with rfl | rfl | rfl | rfl
    all_goals exact fkey_lt (by omega) (by omega)
  · simp [List.pairwise_cons]
    repeat' apply And.intro
    all_goals refine fkey_ne ?_ ?_ ?_ <;> omega

end SemiRegularTiling

namespace SemiRegularTiling

theorem threeCell_ok {rows cols x y : Nat} (hx2 : x < cols - 1) (hy2 : y < rows - 1) :
    ∀ f ∈ threeCell cols x y, faceOK rows cols f := by
  have hF1 : faceOK rows cols
      [fkey cols (x + 0) (y + 0), fkey cols (x + 1) (y + 0),
       fkey cols (x + 1) (y + 1), fkey cols (x + 0) (y + 1)] := by
    constructor
    · intro k hk
      simp only [List.mem_cons, List.not_mem_nil, or_false] at hk
      rcases hk with rfl | rfl | rfl | rfl
      all_goals exact fkey_lt (by omega) (by omega)
    · simp [List.pairwise_cons]
      repeat' apply And.intro
      all_goals refine fkey_ne ?_ ?_ ?_ <;> omega
  have hF2 : faceOK rows cols
      [fkey cols (x + 0) (y + 0), fkey cols (x + 1) (y + 0), fkey cols (x + 0) (y + 1)] := by
    constructor
    · intro k hk
      simp only [List.mem_cons, List.not_mem_nil, or_false] at hk
      rcases hk with rfl | rfl | rfl
      all_goals exact fkey_lt (by omega) (by omega)
    · simp [List.pairwise_cons]
      repeat' apply And.intro
      all_goals refine fkey_ne ?_ ?_ ?_ <;> omega
  have hF3 : faceOK rows cols
      [fkey cols (x + 1) (y + 0), fkey cols (x + 1) (y + 1), fkey cols (x + 0) (y + 1)] := by
    constructor
    · intro k hk
      simp only [List.mem_cons, List.not_mem_nil, or_false] at hk
      rcases hk with rfl | rfl | rfl
      all_goals exact fkey_lt (by omega) (by omega)
    · simp [List.pairwise_cons]
      repeat' apply And.intro
      all_goals refine fkey_ne ?_ ?_ ?_ <;> omega
  intro f hf
  have hsub : f = [fkey cols (x + 0) (y + 0), fkey cols (x + 1) (y + 0),
        fkey cols (x + 1) (y + 1), fkey cols (x + 0) (y + 1)]
      ∨ f = [fkey cols (x + 0) (y + 0), fkey cols (x + 1) (y + 0), fkey cols (x + 0) (y + 1)]
      ∨ f = [fkey cols (x + 1) (y + 0), fkey cols (x + 1) (y + 1), fkey cols (x + 0) (y + 1)] := by
    unfold threeCell at hf
    split_ifs at hf <;>
      simp only [List.mem_cons, List.not_mem_nil, or_false, List.mem_singleton] at hf <;>
      tauto
  rcases hsub with rfl | rfl | rfl
  · exact hF1
  · exact hF2
  · exact hF3

theorem fourCell_ok {rows cols x y : Nat} (hx1 : 1 ≤ x) (hx2 : x < cols - 1)
    (hy1 : 1 ≤ y) (hy2 : y < rows - 2) :
    ∀ f ∈ fourCell cols x y, faceOK rows cols f := by
  have hF1 : faceOK rows cols
      [fkey cols (x + 0) (y + 0), fkey cols (x + 1) (y + 0), fkey cols (x + 0) (y + 1)] := by
    constructor
    · intro k hk
      simp only [List.mem_cons, List.not_mem_nil, or_false] at hk
      rcases hk with rfl | rfl | rfl
      all_goals exact fkey_lt (by omega) (by omega)
    · simp [List.pairwise_cons]
      repeat' apply And.intro
      all_goals refine fkey_ne ?_ ?_ ?_ <;> omega
  have hF2 : faceOK rows cols
      [fkey cols (x + 0) (y + 0), fkey cols (x + 0) (y + 1), fkey cols (x - 1) (y + 1)] := by
    constructor
    · intro k hk
      simp only [List.mem_cons, List.not_mem_nil, or_false] at hk
      rcases hk with rfl | rfl | rfl
      all_goals exact fkey_lt (by omega) (by omega)
    · simp [List.pairwise_cons]
      repeat' apply And.intro
      all_goals refine fkey_ne ?_ ?_ ?_ <;> omega
  have hF3 : faceOK rows cols
      [fkey cols (x + 0) (y + 0), fkey cols (x + 1) (y + 0), fkey cols (x + 1) (y + 1),
       fkey cols (x + 0) (y + 2), fkey cols (x - 1) (y + 2), fkey cols (x - 1) (y + 1)] := by
    constructor
    · intro k hk
      simp only [List.mem_cons, List.not_mem_nil, or_false] at hk
      rcases hk with rfl | rfl | rfl | rfl | rfl | rfl
      all_goals exact fkey_lt (by omega) (by omega)
    · simp [List.pairwise_cons]
      repeat' apply And.intro
      all_goals refine fkey_ne ?_ ?_ ?_ <;> omega
  intro f hf
  have hsub : f = [fkey cols (x + 0) (y + 0), fkey cols (x + 1) (y + 0), fkey cols (x + 0) (y + 1)]
      ∨ f = [fkey cols (x + 0) (y + 0), fkey cols (x + 0) (y + 1), fkey cols (x - 1) (y + 1)]
      ∨ f = [fkey cols (x + 0) (y + 0), fkey cols (x + 1) (y + 0), fkey cols (x + 1) (y + 1),
             fkey cols (x + 0) (y + 2), fkey cols (x - 1) (y + 2), fkey cols (x - 1) (y + 1)] := by
    unfold fourCell at hf
    split_ifs at hf <;>
      simp only [List.mem_append, List.mem_cons, List.not_mem_nil, or_false,
        List.mem_singleton] at hf <;>
      tauto
  rcases hsub with rfl | rfl | rfl
  · exact hF1
  · exact hF2
  · exact hF3

theorem fiveCell_ok {rows cols x y : Nat} (hx1 : 1 ≤ x) (hx2 : x < cols - 1)
    (hy2 : y < rows - 1) :
    ∀ f ∈ fiveCell cols x y, faceOK rows cols f := by
  have hF1 : faceOK rows cols
      [fkey cols (x + 0) (y + 0), fkey cols (x + 1) (y + 0),
       fkey cols (x + 1) (y + 1), fkey cols (x + 0) (y + 1)] := by
    constructor
    · intro k hk
      simp only [List.mem_cons, List.not_mem_nil, or_false] at hk
      rcases hk with rfl | rfl | rfl | rfl
      all_goals exact fkey_lt (by omega) (by omega)
    · simp [List.pairwise_cons]
      repeat' apply And.intro
      all_goals refine fkey_ne ?_ ?_ ?_ <;> omega
  have hF2 : faceOK rows cols
      [fkey cols (x + 0) (y + 0), fkey cols (x + 0) (y + 1), fkey cols (x - 1) (y + 1)] := by
    constructor
    · intro k hk
      simp only [List.mem_cons, List.not_mem_nil, or_false] at hk
      rcases hk with rfl | rfl | rfl
      all_goals exact fkey_lt (by omega) (by omega)
    · simp [List.pairwise_cons]
      repeat' apply And.intro
      all_goals refine fkey_ne ?_ ?_ ?_ <;> omega
  have hF3 : faceOK rows cols
      [fkey cols (x + 0) (y + 0), fkey cols (x + 1) (y + 0), fkey cols (x + 0) (y + 1)] := by
    constructor
    · intro k hk
      simp only [List.mem_cons, List.not_mem_nil, or_false] at hk
      rcases hk with rfl | rfl | rfl
      all_goals exact fkey_lt (by omega) (by omega)
    · simp [List.pairwise_cons]
      repeat' apply And.intro
      all_goals refine fkey_ne ?_ ?_ ?_ <;> omega
  have hF4 : faceOK rows cols
      [fkey cols (x + 0) (y + 0), fkey cols (x + 1) (y + 0), fkey cols (x + 1) (y + 1)] := by
    constructor
    · intro k hk
      simp only [List.mem_cons, List.not_mem_nil, or_false] at hk
      rcases hk with rfl | rfl | rfl
      all_goals exact fkey_lt (by omega) (by omega)
    · simp [List.pairwise_cons]
      repeat' apply And.intro
      all_goals refine fkey_ne ?_ ?_ ?_ <;> omega
  have hF5 : faceOK rows cols
      [fkey cols (x + 0) (y + 0), fkey cols (x + 1) (y + 1), fkey cols (x + 0) (y + 1)] := by
    constructor
    · intro k hk
      simp only [List.mem_cons, List.not_mem_nil, or_false] at hk
      rcases hk with rfl | rfl | rfl
      all_goals exact fkey_lt (by omega) (by omega)
    · simp [List.pairwise_cons]
      repeat' apply And.intro
      all_goals refine fkey_ne ?_ ?_ ?_ <;> omega
  intro f hf
  have hsub : f = [fkey cols (x + 0) (y + 0), fkey cols (x + 1) (y + 0),
        fkey cols (x + 1) (y + 1), fkey cols (x + 0) (y + 1)]
      ∨ f = [fkey cols (x + 0) (y + 0), fkey cols (x + 0) (y + 1), fkey cols (x - 1) (y + 1)]
      ∨ f = [fkey cols (x + 0) (y + 0), fkey cols (x + 1) (y + 0), fkey cols (x + 0) (y + 1)]
      ∨ f = [fkey cols (x + 0) (y + 0), fkey cols (x + 1) (y + 0), fkey cols (x + 1) (y + 1)]
      ∨ f = [fkey cols (x + 0) (y + 0), fkey cols (x + 1) (y + 1), fkey cols (x + 0) (y + 1)] := by
    unfold fiveCell at hf
    split_ifs at hf <;>
      simp only [List.mem_append, List.mem_cons, List.not_mem_nil, or_false,
        List.mem_singleton] at hf <;>
      tauto
  rcases hsub with rfl | rfl | rfl | rfl | rfl
  · exact hF1
  · exact hF2
  · exact hF3
  · exact hF4
  · exact hF5

set_option maxHeartbeats 1600000 in
theorem sixCell_ok {rows cols x y : Nat} (hx2 : x < cols - 3)
    (hy1 : 1 ≤ y) (hy2 : y < rows - 4) :
    ∀ f ∈ sixCell cols x y, faceOK rows cols f := by
  have hF1 : faceOK rows cols
      [fkey cols (x + 1) (y + 0), fkey cols (x + 2) (y - 1), fkey cols (x + 3) (y - 1),
       fkey cols (x + 2) (y + 0), fkey cols (x + 2) (y + 1), fkey cols (x + 2) (y + 2),
       fkey cols (x + 2) (y + 3), fkey cols (x + 1) (y + 4), fkey cols (x + 0) (y + 4),
       fkey cols (x + 1) (y + 3), fkey cols (x + 0) (y + 2), fkey cols (x + 0) (y + 1)] := by
    constructor
    · intro k hk
      simp only [List.mem_cons, List.not_mem_nil, or_false] at hk
      rcases hk with rfl | rfl | rfl | rfl | rfl | rfl | rfl | rfl | rfl | rfl | rfl | rfl
      all_goals exact fkey_lt (by omega) (by omega)
    · simp [List.pairwise_cons]
      repeat' apply And.intro
      all_goals refine fkey_ne ?_ ?_ ?_ <;> omega
  have hF2 : faceOK rows cols
      [fkey cols (x + 0) (y + 0), fkey cols (x + 1) (y + 0), fkey cols (x + 0) (y + 1)] := by
    constructor
    · intro k hk
      simp only [List.mem_cons, List.not_mem_nil, or_false] at hk
      rcases hk with rfl | rfl | rfl
      all_goals exact fkey_lt (by omega) (by omega)
    · simp [List.pairwise_cons]
      repeat' apply And.intro
      all_goals refine fkey_ne ?_ ?_ ?_ <;> omega
  have hF3 : faceOK rows cols
      [fkey cols (x + 0) (y + 0), fkey cols (x + 1) (y + 1), fkey cols (x + 0) (y + 1)] := by
    constructor
    · intro k hk
      simp only [List.mem_cons, List.not_mem_nil, or_false] at hk
      rcases hk with rfl | rfl | rfl
      all_goals exact fkey_lt (by omega) (by omega)
    · simp [List.pairwise_cons]
      repeat' apply And.intro
      all_goals refine fkey_ne ?_ ?_ ?_ <;> omega
  intro f hf
  have hsub : f = [fkey cols (x + 1) (y + 0), fkey cols (x + 2) (y - 1), fkey cols (x + 3) (y - 1),
        fkey cols (x + 2) (y + 0), fkey cols (x + 2) (y + 1), fkey cols (x + 2) (y + 2),
        fkey cols (x + 2) (y + 3), fkey cols (x + 1) (y + 4), fkey cols (x + 0) (y + 4),
        fkey cols (x + 1) (y + 3), fkey cols (x + 0) (y + 2), fkey cols (x + 0) (y + 1)]
      ∨ f = [fkey cols (x + 0) (y + 0), fkey cols (x + 1) (y + 0), fkey cols (x + 0) (y + 1)]
      ∨ f = [fkey cols (x + 0) (y + 0), fkey cols (x + 1) (y + 1), fkey cols (x + 0) (y + 1)] := by
    unfold sixCell at hf
    split_ifs at hf <;>
      simp only [List.mem_append, List.mem_cons, List.not_mem_nil, or_false,
        List.mem_singleton] at hf <;>
      tauto
  rcases hsub with rfl | rfl | rfl
  · exact hF1
  · exact hF2
  · exact hF3

set_option maxHeartbeats 1600000 in
theorem sevenCell_ok {rows cols x y : Nat} (hx1 : 2 ≤ x) (hx2 : x < cols - 2)
    (hy1 : 2 ≤ y) (hy2 : y < rows - 3) :
    ∀ f ∈ sevenCell cols x y, faceOK rows cols f := by
  have hF1 : faceOK rows cols
      [fkey cols (x + 0) (y + 0), fkey cols (x + 1) (y + 1), fkey cols (x + 1) (y + 2),
       fkey cols (x + 0) (y + 3), fkey cols (x + 0) (y + 2), fkey cols (x + 0) (y + 1)] := by
    constructor
    · intro k hk
      simp only [List.mem_cons, List.not_mem_nil, or_false] at hk
      rcases hk with rfl | rfl | rfl | rfl | rfl | rfl
      all_goals exact fkey_lt (by omega) (by omega)
    · simp [List.pairwise_cons]
      repeat' apply And.intro
      all_goals refine fkey_ne ?_ ?_ ?_ <;> omega
  have hF2 : faceOK rows cols
      [fkey cols (x + 0) (y + 0), fkey cols (x + 2) (y - 2), fkey cols (x + 2) (y - 1),
       fkey cols (x + 1) (y + 1)] := by
    constructor
    · intro k hk
      simp only [List.mem_cons, List.not_mem_nil, or_false] at hk
      rcases hk with rfl | rfl | rfl | rfl
      all_goals exact fkey_lt (by omega) (by omega)
    · simp [List.pairwise_cons]
      repeat' apply And.intro
      all_goals refine fkey_ne ?_ ?_ ?_ <;> omega
  have hF3 : faceOK rows cols
      [fkey cols (x + 1) (y + 1), fkey cols (x + 2) (y - 1), fkey cols (x + 2) (y + 1)] := by
    constructor
    · intro k hk
      simp only [List.mem_cons, List.not_mem_nil, or_false] at hk
      rcases hk with rfl | rfl | rfl
      all_goals exact fkey_lt (by omega) (by omega)
    · simp [List.pairwise_cons]
      repeat' apply And.intro
      all_goals refine fkey_ne ?_ ?_ ?_ <;> omega
  have hF4 : faceOK rows cols
      [fkey cols (x + 0) (y + 0), fkey cols (x + 1) (y + 0),
       fkey cols (x + 1) (y + 1), fkey cols (x + 0) (y + 1)] := by
    constructor
    · intro k hk
      simp only [List.mem_cons, List.not_mem_nil, or_false] at hk
      rcases hk with rfl | rfl | rfl | rfl
      all_goals exact fkey_lt (by omega) (by omega)
    · simp [List.pairwise_cons]
      repeat' apply And.intro
      all_goals refine fkey_ne ?_ ?_ ?_ <;> omega
  have hF5 : faceOK rows cols
      [fkey cols (x + 0) (y + 0), fkey cols (x - 1) (y + 2),
       fkey cols (x - 1) (y + 3), fkey cols (x - 1) (y + 1)] := by
    constructor
    · intro k hk
      simp only [List.mem_cons, List.not_mem_nil, or_false] at hk
      rcases hk with rfl | rfl | rfl | rfl
      all_goals exact fkey_lt (by omega) (by omega)
    · simp [List.pairwise_cons]
      repeat' apply And.intro
      all_goals refine fkey_ne ?_ ?_ ?_ <;> omega
  have hF6 : faceOK rows cols
      [fkey cols (x - 1) (y + 0), fkey cols (x + 0) (y + 0), fkey cols (x - 2) (y + 2)] := by
    constructor
    · intro k hk
      simp only [List.mem_cons, List.not_mem_nil, or_false] at hk
      rcases hk with rfl | rfl | rfl
      all_goals exact fkey_lt (by omega) (by omega)
    · simp [List.pairwise_cons]
      repeat' apply And.intro
      all_goals refine fkey_ne ?_ ?_ ?_ <;> omega
  intro f hf
  have hsub : f = [fkey cols (x + 0) (y + 0), fkey cols (x + 1) (y + 1), fkey cols (x + 1) (y + 2),
        fkey cols (x + 0) (y + 3), fkey cols (x + 0) (y + 2), fkey cols (x + 0) (y + 1)]
      ∨ f = [fkey cols (x + 0) (y + 0), fkey cols (x + 2) (y - 2), fkey cols (x + 2) (y - 1),
             fkey cols (x + 1) (y + 1)]
      ∨ f = [fkey cols (x + 1) (y + 1), fkey cols (x + 2) (y - 1), fkey cols (x + 2) (y + 1)]
      ∨ f = [fkey cols (x + 0) (y + 0), fkey cols (x + 1) (y + 0),
             fkey cols (x + 1) (y + 1), fkey cols (x + 0) (y + 1)]
      ∨ f = [fkey cols (x + 0) (y + 0), fkey cols (x - 1) (y + 2),
             fkey cols (x - 1) (y + 3), fkey cols (x - 1) (y + 1)]
      ∨ f = [fkey cols (x - 1) (y + 0), fkey cols (x + 0) (y + 0), fkey cols (x - 2) (y + 2)] := by
    unfold sevenCell at hf
    split_ifs at hf <;>
      simp only [List.mem_append, List.mem_cons, List.not_mem_nil, or_false,
        List.mem_singleton] at hf <;>
      tauto
  rcases hsub with rfl | rfl | rfl | rfl | rfl | rfl
  · exact hF1
  · exact hF2
  · exact hF3
  · exact hF4
  · exact hF5
  · exact hF6

set_option maxHeartbeats 1600000 in
theorem eightCell_ok {rows cols x y : Nat} (hx1 : 3 ≤ x) (hx2 : x < cols - 3)
    (hy1 : 3 ≤ y) (hy2 : y < rows - 4) :
    ∀ f ∈ eightCell cols x y, faceOK rows cols f := by
  have hF1 : faceOK rows cols
      [fkey cols (x + 0) (y + 0), fkey cols (x + 1) (y + 1), fkey cols (x + 1) (y + 2),
       fkey cols (x + 0) (y + 3), fkey cols (x + 0) (y + 2), fkey cols (x + 0) (y + 1)] := by
    constructor
    · intro k hk
      simp only [List.mem_cons, List.not_mem_nil, or_false] at hk
      rcases hk with rfl | rfl | rfl | rfl | rfl | rfl
      all_goals exact fkey_lt (by omega) (by omega)
    · simp [List.pairwise_cons]
      repeat' apply And.intro
      all_goals refine fkey_ne ?_ ?_ ?_ <;> omega
  have hF2 : faceOK rows cols
      [fkey cols (x + 0) (y + 0), fkey cols (x + 1) (y + 0),
       fkey cols (x + 1) (y + 1), fkey cols (x + 0) (y + 1)] := by
    constructor
    · intro k hk
      simp only [List.mem_cons, List.not_mem_nil, or_false] at hk
      rcases hk with rfl | rfl | rfl | rfl
      all_goals exact fkey_lt (by omega) (by omega)
    · simp [List.pairwise_cons]
      repeat' apply And.intro
      all_goals refine fkey_ne ?_ ?_ ?_ <;> omega
  have hF3 : faceOK rows cols
      [fkey cols (x + 0) (y + 0), fkey cols (x - 3) (y + 2),
       fkey cols (x - 3) (y + 3), fkey cols (x - 1) (y + 1)] := by
    constructor
    · intro k hk
      simp only [List.mem_cons, List.not_mem_nil, or_false] at hk
      rcases hk with rfl | rfl | rfl | rfl
      all_goals exact fkey_lt (by omega) (by omega)
    · simp [List.pairwise_cons]
      repeat' apply And.intro
      all_goals refine fkey_ne ?_ ?_ ?_ <;> omega
  have hF4 : faceOK rows cols
      [fkey cols (x + 0) (y + 1), fkey cols (x - 1) (y + 3),
       fkey cols (x - 2) (y + 2), fkey cols (x + 0) (y + 0)] := by
    constructor
    · intro k hk
      simp only [List.mem_cons, List.not_mem_nil, or_false] at hk
      rcases hk with rfl | rfl | rfl | rfl
      all_goals exact fkey_lt (by omega) (by omega)
    · simp [List.pairwise_cons]
      repeat' apply And.intro
      all_goals refine fkey_ne ?_ ?_ ?_ <;> omega
  have hF5 : faceOK rows cols
      [fkey cols (x + 0) (y + 0), fkey cols (x + 1) (y - 2), fkey cols (x + 2) (y - 3),
       fkey cols (x + 3) (y - 3), fkey cols (x + 3) (y - 2), fkey cols (x + 1) (y + 0),
       fkey cols (x + 1) (y + 1), fkey cols (x - 1) (y + 3), fkey cols (x - 1) (y + 4),
       fkey cols (x - 2) (y + 4), fkey cols (x - 3) (y + 3), fkey cols (x + 0) (y + 1)] := by
    constructor
    · intro k hk
      simp only [List.mem_cons, List.not_mem_nil, or_false] at hk
      rcases hk with rfl | rfl | rfl | rfl | rfl | rfl | rfl | rfl | rfl | rfl | rfl | rfl
      all_goals exact fkey_lt (by omega) (by omega)
    · simp [List.pairwise_cons]
      repeat' apply And.intro
      all_goals refine fkey_ne ?_ ?_ ?_ <;> omega
  intro f hf
  have hsub : f = [fkey cols (x + 0) (y + 0), fkey cols (x + 1) (y + 1), fkey cols (x + 1) (y + 2),
        fkey cols (x + 0) (y + 3), fkey cols (x + 0) (y + 2), fkey cols (x + 0) (y + 1)]
      ∨ f = [fkey cols (x + 0) (y + 0), fkey cols (x + 1) (y + 0),
             fkey cols (x + 1) (y + 1), fkey cols (x + 0) (y + 1)]
      ∨ f = [fkey cols (x + 0) (y + 0), fkey cols (x - 3) (y + 2),
             fkey cols (x - 3) (y + 3), fkey cols (x - 1) (y + 1)]
      ∨ f = [fkey cols (x + 0) (y + 1), fkey cols (x - 1) (y + 3),
             fkey cols (x - 2) (y + 2), fkey cols (x + 0) (y + 0)]
      ∨ f = [fkey cols (x + 0) (y + 0), fkey cols (x + 1) (y - 2), fkey cols (x + 2) (y - 3),
             fkey cols (x + 3) (y - 3), fkey cols (x + 3) (y - 2), fkey cols (x + 1) (y + 0),
             fkey cols (x + 1) (y + 1), fkey cols (x - 1) (y + 3), fkey cols (x - 1) (y + 4),
             fkey cols (x - 2) (y + 4), fkey cols (x - 3) (y + 3), fkey cols (x + 0) (y + 1)] := by
    unfold eightCell at hf
    split_ifs at hf <;>
      simp only [List.mem_append, List.mem_cons, List.not_mem_nil, or_false,
        List.mem_singleton] at hf <;>
      tauto
  rcases hsub with rfl | rfl | rfl | rfl | rfl
  · exact hF1
  · exact hF2
  · exact hF3
  · exact hF4
  · exact hF5

end SemiRegularTiling

namespace RegularTiling

theorem triangleCell_ok {rows cols x y : Nat} (hx2 : x < cols - 1) (hy2 : y < rows - 1) :
    ∀ f ∈ triangleCell cols x y, faceOK rows cols f := by
  intro f hf
  have hsub : f = [fkey cols (x + 0) (y + 0), fkey cols (x + 1) (y + 0), fkey cols (x + 0) (y + 1)]
      ∨ f = [fkey cols (x + 1) (y + 0), fkey cols (x + 1) (y + 1), fkey cols (x + 0) (y + 1)] := by
    unfold triangleCell at hf
    simp only [List.mem_cons, List.not_mem_nil, or_false, List.mem_singleton] at hf
    tauto
  rcases hsub with rfl | rfl
  · constructor
    · intro k hk
      simp only [List.mem_cons, List.not_mem_nil, or_false] at hk
      rcases hk with rfl | rfl | rfl
      all_goals exact fkey_lt (by omega) (by omega)
    · simp [List.pairwise_cons]
      repeat' apply And.intro
      all_goals refine fkey_ne ?_ ?_ ?_ <;> omega
  · constructor
    · intro k hk
      simp only [List.mem_cons, List.not_mem_nil, or_false] at hk
      rcases hk with rfl | rfl | rfl
      all_goals exact fkey_lt (by omega) (by omega)
    · simp [List.pairwise_cons]
      repeat' apply And.intro
      all_goals refine fkey_ne ?_ ?_ ?_ <;> omega

theorem squareCell_ok {rows cols x y : Nat} (hx2 : x < cols - 1) (hy2 : y < rows - 1) :
    ∀ f ∈ squareCell cols x y, faceOK rows cols f := by
  intro f hf
  have hsub : f = [fkey cols (x + 0) (y + 0), fkey cols (x + 1) (y + 0),
      fkey cols (x + 1) (y + 1), fkey cols (x + 0) (y + 1)] := by
    unfold squareCell at hf
    simp only [List.mem_cons, List.not_mem_nil, or_false, List.mem_singleton] at hf
    exact hf
  subst hsub
  constructor
  · intro k hk
    simp only [List.mem_cons, List.not_mem_nil, or_false] at hk
    rcases hk with rfl | rfl | rfl | rfl
    all_goals exact fkey_lt (by omega) (by omega)
  · simp [List.pairwise_cons]
    repeat' apply And.intro
    all_goals refine fkey_ne ?_ ?_ ?_ <;> omega

theorem hexagonCell_ok {rows cols x y : Nat} (hx2 : x < cols - 1) (hy2 : y < rows - 2) :
    ∀ f ∈ hexagonCell cols x y, faceOK rows cols f := by
  intro f hf
  have hsub : f = [fkey cols (x + 0) (y + 0), fkey cols (x + 1) (y + 0),
      fkey cols (x + 1) (y + 1), fkey cols (x + 1) (y + 2),
      fkey cols (x + 0) (y + 2), fkey cols (x + 0) (y + 1)] := by
    unfold hexagonCell at hf
    split_ifs at hf <;>
      simp only [List.mem_cons, List.not_mem_nil, or_false, List.mem_singleton] at hf <;>
      tauto
  subst hsub
  constructor
  · intro k hk
    simp only [List.mem_cons, List.not_mem_nil, or_false] at hk
    rcases hk with rfl | rfl | rfl | rfl | rfl | rfl
    all_goals exact fkey_lt (by omega) (by omega)
  · simp [List.pairwise_cons]
    repeat' apply And.intro
    all_goals refine fkey_ne ?_ ?_ ?_ <;> omega

end RegularTiling

/- ## Claim theorems -/

/-- C1: for every one of the eleven tiling generators and every (rows, cols)
for which the generator returns a Mesh record, every vertex key occurring in
every face of the returned face list is strictly less than `rows * cols`, and
the keys within any single face are pairwise distinct. -/
theorem c1_face_keys_in_bounds_and_distinct (rows cols : Nat) (m : Mesh) :
    (SemiRegularTiling.one rows cols = some m → FacesOK rows cols m.faces) ∧
    (SemiRegularTiling.two rows cols = some m → FacesOK rows cols m.faces) ∧
    (SemiRegularTiling.three rows cols = some m → FacesOK rows cols m.faces) ∧
    (SemiRegularTiling.four rows cols = some m → FacesOK rows cols m.faces) ∧
    (SemiRegularTiling.five rows cols = some m → FacesOK rows cols m.faces) ∧
    (SemiRegularTiling.six rows cols = some m → FacesOK rows cols m.faces) ∧
    (SemiRegularTiling.seven rows cols = some m → FacesOK rows cols m.faces) ∧
    (SemiRegularTiling.eight rows cols = some m → FacesOK rows cols m.faces) ∧
    (RegularTiling.triangle rows cols = some m → FacesOK rows cols m.faces) ∧
    (RegularTiling.square rows cols = some m → FacesOK rows cols m.faces) ∧
    (RegularTiling.hexagon rows cols = some m → FacesOK rows cols m.faces) := by
  refine ⟨?_, ?_, ?_, ?_, ?_, ?_, ?_, ?_, ?_, ?_, ?_⟩
  · intro h
    obtain ⟨-, -, hface⟩ := SemiRegularTiling.one_some h
    intro f hf
    obtain ⟨x, y, hx1, hx2, hy1, hy2, hc⟩ := hface f hf
    exact SemiRegularTiling.oneCell_ok hx1 hx2 hy1 hy2 f hc
  · intro h
    obtain ⟨-, -, hface⟩ := SemiRegularTiling.two_some h
    intro f hf
    rcases hface f hf with ⟨x, y, hx1, hx2, hy1, hy2, hc⟩ | ⟨x, y, hx2, hy2, hc⟩
    · exact SemiRegularTiling.twoCellA_ok hx1 hx2 hy1 hy2 f hc
    · exact SemiRegularTiling.twoCellB_ok hx2 hy2 f hc
  · intro h
    obtain ⟨-, -, hface⟩ := SemiRegularTiling.three_some h
    intro f hf
    obtain ⟨x, y, hx2, hy2, hc⟩ := hface f hf
    exact SemiRegularTiling.threeCell_ok hx2 hy2 f hc
  · intro h
    obtain ⟨-, -, hface⟩ := SemiRegularTiling.four_some h
    intro f hf
    obtain ⟨x, y, hx1, hx2, hy1, hy2, hc⟩ := hface f hf
    exact SemiRegularTiling.fourCell_ok hx1 hx2 hy1 hy2 f hc
  · intro h
    obtain ⟨-, -, hface⟩ := SemiRegularTiling.five_some h
    intro f hf
    obtain ⟨x, y, hx1, hx2, hy2, hc⟩ := hface f hf
    exact SemiRegularTiling.fiveCell_ok hx1 hx2 hy2 f hc
  · intro h
    obtain ⟨-, -, hface⟩ := SemiRegularTiling.six_some h
    intro f hf
    obtain ⟨x, y, hx2, hy1, hy2, hc⟩ := hface f hf
    exact SemiRegularTiling.sixCell_ok hx2 hy1 hy2 f hc
  · intro h
    obtain ⟨-, -, hface⟩ := SemiRegularTiling.seven_some h
    intro f hf
    obtain ⟨x, y, hx1, hx2, hy1, hy2, hc⟩ := hface f hf
    exact SemiRegularTiling.sevenCell_ok hx1 hx2 hy1 hy2 f hc
  · intro h
    obtain ⟨-, -, hface⟩ := SemiRegularTiling.eight_some h
    intro f hf
    obtain ⟨x, y, hx1, hx2, hy1, hy2, hc⟩ := hface f hf
    exact SemiRegularTiling.eightCell_ok hx1 hx2 hy1 hy2 f hc
  · intro h
    obtain ⟨-, -, hface⟩ := RegularTiling.triangle_some h
    intro f hf
    obtain ⟨x, y, hx2, hy2, hc⟩ := hface f hf
    exact RegularTiling.triangleCell_ok hx2 hy2 f hc
  · intro h
    obtain ⟨-, -, hface⟩ := RegularTiling.square_some h
    intro f hf
    obtain ⟨x, y, hx2, hy2, hc⟩ := hface f hf
    exact RegularTiling.squareCell_ok hx2 hy2 f hc
  · intro h
    obtain ⟨-, -, hface⟩ := RegularTiling.hexagon_some h
    intro f hf
    obtain ⟨x, y, hx2, hy2, hc⟩ := hface f hf
    exact RegularTiling.hexagonCell_ok hx2 hy2 f hc

set_option maxRecDepth 40000 in
/-- Witness for C1: all eleven generators succeed at `(rows, cols) = (12, 12)`
(with non-empty face lists) and the theorem applies to each. -/
theorem c1_witness :
    FacesOK 12 12 (mOf (SemiRegularTiling.one 12 12)).faces ∧
    FacesOK 12 12 (mOf (SemiRegularTiling.two 12 12)).faces ∧
    FacesOK 12 12 (mOf (SemiRegularTiling.three 12 12)).faces ∧
    FacesOK 12 12 (mOf (SemiRegularTiling.four 12 12)).faces ∧
    FacesOK 12 12 (mOf (SemiRegularTiling.five 12 12)).faces ∧
    FacesOK 12 12 (mOf (SemiRegularTiling.six 12 12)).faces ∧
    FacesOK 12 12 (mOf (SemiRegularTiling.seven 12 12)).faces ∧
    FacesOK 12 12 (mOf (SemiRegularTiling.eight 12 12)).faces ∧
    FacesOK 12 12 (mOf (RegularTiling.triangle 12 12)).faces ∧
    FacesOK 12 12 (mOf (RegularTiling.square 12 12)).faces ∧
    FacesOK 12 12 (mOf (RegularTiling.hexagon 12 12)).faces := by
  refine ⟨?_, ?_, ?_, ?_, ?_, ?_, ?_, ?_, ?_, ?_, ?_⟩
  · exact (c1_face_keys_in_bounds_and_distinct 12 12 (mOf (SemiRegularTiling.one 12 12))).1 rfl
  · exact (c1_face_keys_in_bounds_and_distinct 12 12 (mOf (SemiRegularTiling.two 12 12))).2.1 rfl
  · exact (c1_face_keys_in_bounds_and_distinct 12 12 (mOf (SemiRegularTiling.three 12 12))).2.2.1 rfl
  · exact (c1_face_keys_in_bounds_and_distinct 12 12 (mOf (SemiRegularTiling.four 12 12))).2.2.2.1 rfl
  · exact (c1_face_keys_in_bounds_and_distinct 12 12 (mOf (SemiRegularTiling.five 12 12))).2.2.2.2.1 rfl
  · exact (c1_face_keys_in_bounds_and_distinct 12 12 (mOf (SemiRegularTiling.six 12 12))).2.2.2.2.2.1 rfl
  · exact (c1_face_keys_in_bounds_and_distinct 12 12 (mOf (SemiRegularTiling.seven 12 12))).2.2.2.2.2.2.1 rfl
  · exact (c1_face_keys_in_bounds_and_distinct 12 12 (mOf (SemiRegularTiling.eight 12 12))).2.2.2.2.2.2.2.1 rfl
  · exact (c1_face_keys_in_bounds_and_distinct 12 12 (mOf (RegularTiling.triangle 12 12))).2.2.2.2.2.2.2.2.1 rfl
  · exact (c1_face_keys_in_bounds_and_distinct 12 12 (mOf (RegularTiling.square 12 12))).2.2.2.2.2.2.2.2.2.1 rfl
  · exact (c1_face_keys_in_bounds_and_distinct 12 12 (mOf (RegularTiling.hexagon 12 12))).2.2.2.2.2.2.2.2.2.2 rfl

/-- C2: for every one of the eleven tiling generators and every (rows, cols)
for which the generator returns a Mesh record, the points sequence has length
exactly `rows * cols`, and the point at flat index `x + y*cols` is the
tiling's coordinate transform applied to lattice cell (x, y), for
`0 ≤ x < cols`, `0 ≤ y < rows` (y outermost, x innermost in the generating
loop, which is what the flat-index correspondence expresses). -/
theorem c2_points_length_and_layout (rows cols : Nat) (m : Mesh) :
    (SemiRegularTiling.one rows cols = some m → m.points.length = rows * cols ∧
      ∀ x y, x < cols → y < rows →
        m.points[x + y * cols]? = some (SemiRegularTiling.onePoint x y)) ∧
    (SemiRegularTiling.two rows cols = some m → m.points.length = rows * cols ∧
      ∀ x y, x < cols → y < rows →
        m.points[x + y * cols]? = some (SemiRegularTiling.twoPoint x y)) ∧
    (SemiRegularTiling.three rows cols = some m → m.points.length = rows * cols ∧
      ∀ x y, x < cols → y < rows →
        m.points[x + y * cols]? = some (SemiRegularTiling.threePoint x y)) ∧
    (SemiRegularTiling.four rows cols = some m → m.points.length = rows * cols ∧
      ∀ x y, x < cols → y < rows →
        m.points[x + y * cols]? = some (SemiRegularTiling.fourPoint x y)) ∧
    (SemiRegularTiling.five rows cols = some m → m.points.length = rows * cols ∧
      ∀ x y, x < cols → y < rows →
        m.points[x + y * cols]? = some (SemiRegularTiling.fivePoint x y)) ∧
    (SemiRegularTiling.six rows cols = some m → m.points.length = rows * cols ∧
      ∀ x y, x < cols → y < rows →
        m.points[x + y * cols]? = some (SemiRegularTiling.sixPoint x y)) ∧
    (SemiRegularTiling.seven rows cols = some m → m.points.length = rows * cols ∧
      ∀ x y, x < cols → y < rows →
        m.points[x + y * cols]? = some (SemiRegularTiling.sevenPoint x y)) ∧
    (SemiRegularTiling.eight rows cols = some m → m.points.length = rows * cols ∧
      ∀ x y, x < cols → y < rows →
        m.points[x + y * cols]? = some (SemiRegularTiling.eightPoint x y)) ∧
    (RegularTiling.triangle rows cols = some m → m.points.length = rows * cols ∧
      ∀ x y, x < cols → y < rows →
        m.points[x + y * cols]? = some (RegularTiling.trianglePoint x y)) ∧
    (RegularTiling.square rows cols = some m → m.points.length = rows * cols ∧
      ∀ x y, x < cols → y < rows →
        m.points[x + y * cols]? = some (RegularTiling.squarePoint x y)) ∧
    (RegularTiling.hexagon rows cols = some m → m.points.length = rows * cols ∧
      ∀ x y, x < cols → y < rows →
        m.points[x + y * cols]? = some (RegularTiling.hexagonPoint x y)) := by
  refine ⟨?_, ?_, ?_, ?_, ?_, ?_, ?_, ?_, ?_, ?_, ?_⟩ <;> intro h
  · obtain ⟨-, hp, -⟩ := SemiRegularTiling.one_some h
    rw [hp]
    exact ⟨length_grid rows cols _, fun x y hx hy => grid_getElem _ hx hy⟩
  · obtain ⟨-, hp, -⟩ := SemiRegularTiling.two_some h
    rw [hp]
    exact ⟨length_grid rows cols _, fun x y hx hy => grid_getElem _ hx hy⟩
  · obtain ⟨-, hp, -⟩ := SemiRegularTiling.three_some h
    rw [hp]
    exact ⟨length_grid rows cols _, fun x y hx hy => grid_getElem _ hx hy⟩
  · obtain ⟨-, hp, -⟩ := SemiRegularTiling.four_some h
    rw [hp]
    exact ⟨length_grid rows cols _, fun x y hx hy => grid_getElem _ hx hy⟩
  · obtain ⟨-, hp, -⟩ := SemiRegularTiling.five_some h
    rw [hp]
    exact ⟨length_grid rows cols _, fun x y hx hy => grid_getElem _ hx hy⟩
  · obtain ⟨-, hp, -⟩ := SemiRegularTiling.six_some h
    rw [hp]
    exact ⟨length_grid rows cols _, fun x y hx hy => grid_getElem _ hx hy⟩
  · obtain ⟨-, hp, -⟩ := SemiRegularTiling.seven_some h
    rw [hp]
    exact ⟨length_grid rows cols _, fun x y hx hy => grid_getElem _ hx hy⟩
  · obtain ⟨-, hp, -⟩ := SemiRegularTiling.eight_some h
    rw [hp]
    exact ⟨length_grid rows cols _, fun x y hx hy => grid_getElem _ hx hy⟩
  · obtain ⟨-, hp, -⟩ := RegularTiling.triangle_some h
    rw [hp]
    exact ⟨length_grid rows cols _, fun x y hx hy => grid_getElem _ hx hy⟩
  · obtain ⟨-, hp, -⟩ := RegularTiling.square_some h
    rw [hp]
    exact ⟨length_grid rows cols _, fun x y hx hy => grid_getElem _ hx hy⟩
  · obtain ⟨-, hp, -⟩ := RegularTiling.hexagon_some h
    rw [hp]
    exact ⟨length_grid rows cols _, fun x y hx hy => grid_getElem _ hx hy⟩

set_option maxRecDepth 40000 in
/-- Witness for C2: at `RegularTiling::square(3, 2)` the theorem yields the
expected length and the expected point at the flat index of cell (1, 1). -/
theorem c2_witness :
    (mOf (RegularTiling.square 3 2)).points.length = 3 * 2 ∧
    (mOf (RegularTiling.square 3 2)).points[1 + 1 * 2]?
      = some (RegularTiling.squarePoint 1 1) := by
  have h := (c2_points_length_and_layout 3 2
    (mOf (RegularTiling.square 3 2))).2.2.2.2.2.2.2.2.2.1 rfl
  exact ⟨h.1, h.2 1 1 (by omega) (by omega)⟩

/-- C6: point positions do not depend on the requested patch size — for any
generator and two successful calls with `(r1, c1)` and `(r2, c2)`,
`r1 ≤ r2`, `c1 ≤ c2`, the point stored at flat key `x + y*c1` in the first
call equals the point stored at flat key `x + y*c2` in the second, for every
shared logical coordinate `x < c1`, `y < r1`. -/
theorem c6_points_patch_size_independent (r1 c1 r2 c2 : Nat) (m1 m2 : Mesh) :
    (SemiRegularTiling.one r1 c1 = some m1 → SemiRegularTiling.one r2 c2 = some m2 →
      r1 ≤ r2 → c1 ≤ c2 → ∀ x y, x < c1 → y < r1 →
        m1.points[x + y * c1]? = m2.points[x + y * c2]?) ∧
    (SemiRegularTiling.two r1 c1 = some m1 → SemiRegularTiling.two r2 c2 = some m2 →
      r1 ≤ r2 → c1 ≤ c2 → ∀ x y, x < c1 → y < r1 →
        m1.points[x + y * c1]? = m2.points[x + y * c2]?) ∧
    (SemiRegularTiling.three r1 c1 = some m1 → SemiRegularTiling.three r2 c2 = some m2 →
      r1 ≤ r2 → c1 ≤ c2 → ∀ x y, x < c1 → y < r1 →
        m1.points[x + y * c1]? = m2.points[x + y * c2]?) ∧
    (SemiRegularTiling.four r1 c1 = some m1 → SemiRegularTiling.four r2 c2 = some m2 →
      r1 ≤ r2 → c1 ≤ c2 → ∀ x y, x < c1 → y < r1 →
        m1.points[x + y * c1]? = m2.points[x + y * c2]?) ∧
    (SemiRegularTiling.five r1 c1 = some m1 → SemiRegularTiling.five r2 c2 = some m2 →
      r1 ≤ r2 → c1 ≤ c2 → ∀ x y, x < c1 → y < r1 →
        m1.points[x + y * c1]? = m2.points[x + y * c2]?) ∧
    (SemiRegularTiling.six r1 c1 = some m1 → SemiRegularTiling.six r2 c2 = some m2 →
      r1 ≤ r2 → c1 ≤ c2 → ∀ x y, x < c1 → y < r1 →
        m1.points[x + y * c1]? = m2.points[x + y * c2]?) ∧
    (SemiRegularTiling.seven r1 c1 = some m1 → SemiRegularTiling.seven r2 c2 = some m2 →
      r1 ≤ r2 → c1 ≤ c2 → ∀ x y, x < c1 → y < r1 →
        m1.points[x + y * c1]? = m2.points[x + y * c2]?) ∧
    (SemiRegularTiling.eight r1 c1 = some m1 → SemiRegularTiling.eight r2 c2 = some m2 →
      r1 ≤ r2 → c1 ≤ c2 → ∀ x y, x < c1 → y < r1 →
        m1.points[x + y * c1]? = m2.points[x + y * c2]?) ∧
    (RegularTiling.triangle r1 c1 = some m1 → RegularTiling.triangle r2 c2 = some m2 →
      r1 ≤ r2 → c1 ≤ c2 → ∀ x y, x < c1 → y < r1 →
        m1.points[x + y * c1]? = m2.points[x + y * c2]?) ∧
    (RegularTiling.square r1 c1 = some m1 → RegularTiling.square r2 c2 = some m2 →
      r1 ≤ r2 → c1 ≤ c2 → ∀ x y, x < c1 → y < r1 →
        m1.points[x + y * c1]? = m2.points[x + y * c2]?) ∧
    (RegularTiling.hexagon r1 c1 = some m1 → RegularTiling.hexagon r2 c2 = some m2 →
      r1 ≤ r2 → c1 ≤ c2 → ∀ x y, x < c1 → y < r1 →
        m1.points[x + y * c1]? = m2.points[x + y * c2]?) := by
  refine ⟨?_, ?_, ?_, ?_, ?_, ?_, ?_, ?_, ?_, ?_, ?_⟩ <;> intro h1 h2 hr hc x y hx hy
  · obtain ⟨-, hp1, -⟩ := SemiRegularTiling.one_some h1
    obtain ⟨-, hp2, -⟩ := SemiRegularTiling.one_some h2
    rw [hp1, hp2, grid_getElem _ hx hy, grid_getElem _ (by omega) (by omega)]
  · obtain ⟨-, hp1, -⟩ := SemiRegularTiling.two_some h1
    obtain ⟨-, hp2, -⟩ := SemiRegularTiling.two_some h2
    rw [hp1, hp2, grid_getElem _ hx hy, grid_getElem _ (by omega) (by omega)]
  · obtain ⟨-, hp1, -⟩ := SemiRegularTiling.three_some h1
    obtain ⟨-, hp2, -⟩ := SemiRegularTiling.three_some h2
    rw [hp1, hp2, grid_getElem _ hx hy, grid_getElem _ (by omega) (by omega)]
  · obtain ⟨-, hp1, -⟩ := SemiRegularTiling.four_some h1
    obtain ⟨-, hp2, -⟩ := SemiRegularTiling.four_some h2
    rw [hp1, hp2, grid_getElem _ hx hy, grid_getElem _ (by omega) (by omega)]
  · obtain ⟨-, hp1, -⟩ := SemiRegularTiling.five_some h1
    obtain ⟨-, hp2, -⟩ := SemiRegularTiling.five_some h2
    rw [hp1, hp2, grid_getElem _ hx hy, grid_getElem _ (by omega) (by omega)]
  · obtain ⟨-, hp1, -⟩ := SemiRegularTiling.six_some h1
    obtain ⟨-, hp2, -⟩ := SemiRegularTiling.six_some h2
    rw [hp1, hp2, grid_getElem _ hx hy, grid_getElem _ (by omega) (by omega)]
  · obtain ⟨-, hp1, -⟩ := SemiRegularTiling.seven_some h1
    obtain ⟨-, hp2, -⟩ := SemiRegularTiling.seven_some h2
    rw [hp1, hp2, grid_getElem _ hx hy, grid_getElem _ (by omega) (by omega)]
  · obtain ⟨-, hp1, -⟩ := SemiRegularTiling.eight_some h1
    obtain ⟨-, hp2, -⟩ := SemiRegularTiling.eight_some h2
    rw [hp1, hp2, grid_getElem _ hx hy, grid_getElem _ (by omega) (by omega)]
  · obtain ⟨-, hp1, -⟩ := RegularTiling.triangle_some h1
    obtain ⟨-, hp2, -⟩ := RegularTiling.triangle_some h2
    rw [hp1, hp2, grid_getElem _ hx hy, grid_getElem _ (by omega) (by omega)]
  · obtain ⟨-, hp1, -⟩ := RegularTiling.square_some h1
    obtain ⟨-, hp2, -⟩ := RegularTiling.square_some h2
    rw [hp1, hp2, grid_getElem _ hx hy, grid_getElem _ (by omega) (by omega)]
  · obtain ⟨-, hp1, -⟩ := RegularTiling.hexagon_some h1
    obtain ⟨-, hp2, -⟩ := RegularTiling.hexagon_some h2
    rw [hp1, hp2, grid_getElem _ hx hy, grid_getElem _ (by omega) (by omega)]

set_option maxRecDepth 40000 in
/-- Witness for C6: the shared cell (1, 1) of `hexagon(3, 3)` and
`hexagon(4, 5)` carries the same point. -/
theorem c6_witness :
    (mOf (RegularTiling.hexagon 3 3)).points[1 + 1 * 3]?
      = (mOf (RegularTiling.hexagon 4 5)).points[1 + 1 * 5]? :=
  (c6_points_patch_size_independent 3 3 4 5
      (mOf (RegularTiling.hexagon 3 3)) (mOf (RegularTiling.hexagon 4 5))).2.2.2.2.2.2.2.2.2.2
    rfl rfl (by omega) (by omega) 1 1 (by omega) (by omega)

/-- C7: every generator is deterministic — two calls with identical
`(rows, cols)` yield the same Mesh record (in the embedding the generators
are pure functions of their arguments; the Rust source reads no state other
than its two arguments, which this theorem reflects). -/
theorem c7_deterministic (rows cols : Nat) (m1 m2 : Mesh) :
    (SemiRegularTiling.one rows cols = some m1 →
      SemiRegularTiling.one rows cols = some m2 → m1 = m2) ∧
    (SemiRegularTiling.two rows cols = some m1 →
      SemiRegularTiling.two rows cols = some m2 → m1 = m2) ∧
    (SemiRegularTiling.three rows cols = some m1 →
      SemiRegularTiling.three rows cols = some m2 → m1 = m2) ∧
    (SemiRegularTiling.four rows cols = some m1 →
      SemiRegularTiling.four rows cols = some m2 → m1 = m2) ∧
    (SemiRegularTiling.five rows cols = some m1 →
      SemiRegularTiling.five rows cols = some m2 → m1 = m2) ∧
    (SemiRegularTiling.six rows cols = some m1 →
      SemiRegularTiling.six rows cols = some m2 → m1 = m2) ∧
    (SemiRegularTiling.seven rows cols = some m1 →
      SemiRegularTiling.seven rows cols = some m2 → m1 = m2) ∧
    (SemiRegularTiling.eight rows cols = some m1 →
      SemiRegularTiling.eight rows cols = some m2 → m1 = m2) ∧
    (RegularTiling.triangle rows cols = some m1 →
      RegularTiling.triangle rows cols = some m2 → m1 = m2) ∧
    (RegularTiling.square rows cols = some m1 →
      RegularTiling.square rows cols = some m2 → m1 = m2) ∧
    (RegularTiling.hexagon rows cols = some m1 →
      RegularTiling.hexagon rows cols = some m2 → m1 = m2) := by
  refine ⟨?_, ?_, ?_, ?_, ?_, ?_, ?_, ?_, ?_, ?_, ?_⟩ <;>
    · intro h1 h2
      rw [h1] at h2
      exact Option.some.inj h2

set_option maxRecDepth 40000 in
/-- Witness for C7: applied to two evaluations of `square(2, 2)`. -/
theorem c7_witness : mOf (RegularTiling.square 2 2) = mOf (RegularTiling.square 2 2) :=
  (c7_deterministic 2 2 (mOf (RegularTiling.square 2 2))
    (mOf (RegularTiling.square 2 2))).2.2.2.2.2.2.2.2.2.1 rfl rfl

/- ## Vertex counts of emitted faces -/

namespace SemiRegularTiling

theorem oneCell_len {cols x y : Nat} :
    ∀ f ∈ oneCell cols x y, f.length = 3 ∨ f.length = 6 := by
  intro f hf
  unfold oneCell at hf
  split_ifs at hf
  all_goals
    simp only [List.mem_append, List.mem_cons, List.not_mem_nil, or_false, false_or,
      or_assoc, List.mem_singleton] at hf
  all_goals
    first
      | (rcases hf with rfl | rfl | rfl)
      | (rcases hf with rfl | rfl)
      | (rcases hf with rfl)
  all_goals simp

theorem twoCellA_len {cols x y : Nat} :
    ∀ f ∈ twoCellA cols x y, f.length = 8 := by
  intro f hf
  unfold twoCellA at hf
  split_ifs at hf
  all_goals
    simp only [List.mem_cons, List.not_mem_nil, or_false, false_or, or_assoc,
      List.mem_singleton] at hf
  all_goals rcases hf with rfl
  all_goals simp

theorem twoCellB_len {cols x y : Nat} :
    ∀ f ∈ twoCellB cols x y, f.length = 4 := by
  intro f hf
  unfold twoCellB at hf
  split_ifs at hf
  all_goals
    simp only [List.mem_cons, List.not_mem_nil, or_false, false_or, or_assoc,
      List.mem_singleton] at hf
  all_goals rcases hf with rfl
  all_goals simp

theorem threeCell_len {cols x y : Nat} :
    ∀ f ∈ threeCell cols x y, f.length = 4 ∨ f.length = 3 := by
  intro f hf
  unfold threeCell at hf
  split_ifs at hf
  all_goals
    simp only [List.mem_cons, List.not_mem_nil, or_false, false_or, or_assoc,
      List.mem_singleton] at hf
  all_goals
    first
      | (rcases hf with rfl | rfl)
      | (rcases hf with rfl)
  all_goals simp

theorem fourCell_len {cols x y : Nat} :
    ∀ f ∈ fourCell cols x y, f.length = 3 ∨ f.length = 6 := by
  intro f hf
  unfold fourCell at hf
  split_ifs at hf
  all_goals
    simp only [List.mem_append, List.mem_cons, List.not_mem_nil, or_false, false_or,
      or_assoc, List.mem_singleton] at hf
  all_goals
    first
      | (rcases hf with rfl | rfl | rfl)
      | (rcases hf with rfl | rfl)
      | (rcases hf with rfl)
  all_goals simp

theorem fiveCell_len {cols x y : Nat} :
    ∀ f ∈ fiveCell cols x y, f.length = 4 ∨ f.length = 3 := by
  intro f hf
  unfold fiveCell at hf
  split_ifs at hf
  all_goals
    simp only [List.mem_append, List.mem_cons, List.not_mem_nil, or_false, false_or,
      or_assoc, List.mem_singleton] at hf
  all_goals
    first
      | (rcases hf with rfl | rfl | rfl | rfl | rfl | rfl)
      | (rcases hf with rfl | rfl | rfl | rfl | rfl)
      | (rcases hf with rfl | rfl | rfl | rfl)
      | (rcases hf with rfl | rfl | rfl)
      | (rcases hf with rfl | rfl)
      | (rcases hf with rfl)
  all_goals simp

theorem sixCell_len {cols x y : Nat} :
    ∀ f ∈ sixCell cols x y, f.length = 12 ∨ f.length = 3 := by
  intro f hf
  unfold sixCell at hf
  split_ifs at hf
  all_goals
    simp only [List.mem_append, List.mem_cons, List.not_mem_nil, or_false, false_or,
      or_assoc, List.mem_singleton] at hf
  all_goals
    first
      | (rcases hf with rfl | rfl | rfl)
      | (rcases hf with rfl | rfl)
      | (rcases hf with rfl)
  all_goals simp

theorem sevenCell_len {cols x y : Nat} :
    ∀ f ∈ sevenCell cols x y, f.length = 6 ∨ f.length = 4 ∨ f.length = 3 := by
  intro f hf
  unfold sevenCell at hf
  split_ifs at hf
  all_goals
    simp only [List.mem_append, List.mem_cons, List.not_mem_nil, or_false, false_or,
      or_assoc, List.mem_singleton] at hf
  all_goals
    first
      | (rcases hf with rfl | rfl | rfl | rfl | rfl | rfl)
      | (rcases hf with rfl | rfl | rfl | rfl | rfl)
      | (rcases hf with rfl | rfl | rfl | rfl)
      | (rcases hf with rfl | rfl | rfl)
      | (rcases hf with rfl | rfl)
      | (rcases hf with rfl)
  all_goals simp

theorem eightCell_len {cols x y : Nat} :
    ∀ f ∈ eightCell cols x y, f.length = 6 ∨ f.length = 4 ∨ f.length = 12 := by
  intro f hf
  unfold eightCell at hf
  split_ifs at hf
  all_goals
    simp only [List.mem_append, List.mem_cons, List.not_mem_nil, or_false, false_or,
      or_assoc, List.mem_singleton] at hf
  all_goals
    first
      | (rcases hf with rfl | rfl | rfl | rfl | rfl)
      | (rcases hf with rfl | rfl | rfl | rfl)
      | (rcases hf with rfl | rfl | rfl)
      | (rcases hf with rfl | rfl)
      | (rcases hf with rfl)
  all_goals simp

end SemiRegularTiling

namespace RegularTiling

theorem triangleCell_len {cols x y : Nat} :
    ∀ f ∈ triangleCell cols x y, f.length = 3 := by
  intro f hf
  unfold triangleCell at hf
  simp only [List.mem_cons, List.not_mem_nil, or_false, false_or, or_assoc,
      List.mem_singleton] at hf
  rcases hf with rfl | rfl
  all_goals simp

theorem squareCell_len {cols x y : Nat} :
    ∀ f ∈ squareCell cols x y, f.length = 4 := by
  intro f hf
  unfold squareCell at hf
  simp only [List.mem_cons, List.not_mem_nil, or_false, false_or, or_assoc,
      List.mem_singleton] at hf
  rcases hf with rfl
  simp

theorem hexagonCell_len {cols x y : Nat} :
    ∀ f ∈ hexagonCell cols x y, f.length = 6 := by
  intro f hf
  unfold hexagonCell at hf
  split_ifs at hf
  all_goals
    simp only [List.mem_cons, List.not_mem_nil, or_false, false_or, or_assoc,
      List.mem_singleton] at hf
  all_goals rcases hf with rfl
  all_goals simp

end RegularTiling

set_option maxRecDepth 40000 in
/-- C5 (counterexample): the 7th semi-regular tiling never emits a 12-vertex
face — at `(10, 10)` its face list is non-empty and contains no dodecagon —
refuting the claim that dodecagon faces appear in tilings 6–8. -/
theorem c5_counterexample_seven_has_no_dodecagon :
    facesO (SemiRegularTiling.seven 10 10) ≠ [] ∧
    ∀ f ∈ facesO (SemiRegularTiling.seven 10 10), f.length ≠ 12 := by
  decide

/-- C5 (amended): each emitted face's vertex count matches the polygon type of
its cell: the regular triangle/square/hexagon tilings emit only 3-, 4- and 6-vertex
faces respectively; the per-tiling vertex-count sets of the semi-regular tilings are
`one {3,6}`, `two {8,4}`, `three {4,3}`, `four {3,6}`, `five {4,3}`,
`six {12,3}`, `seven {6,4,3}`, `eight {6,4,12}` (all within {3,4,6,8,12});
12-vertex dodecagon faces appear in tilings 6 and 8 — never in tiling 7 —
and 8-vertex octagon faces in tiling 2, as the discriminator tables dictate. -/
theorem c5_amended_face_vertex_counts (rows cols : Nat) (m : Mesh) :
    (SemiRegularTiling.one rows cols = some m →
      ∀ f ∈ m.faces, f.length = 3 ∨ f.length = 6) ∧
    (SemiRegularTiling.two rows cols = some m →
      ∀ f ∈ m.faces, f.length = 8 ∨ f.length = 4) ∧
    (SemiRegularTiling.three rows cols = some m →
      ∀ f ∈ m.faces, f.length = 4 ∨ f.length = 3) ∧
    (SemiRegularTiling.four rows cols = some m →
      ∀ f ∈ m.faces, f.length = 3 ∨ f.length = 6) ∧
    (SemiRegularTiling.five rows cols = some m →
      ∀ f ∈ m.faces, f.length = 4 ∨ f.length = 3) ∧
    (SemiRegularTiling.six rows cols = some m →
      ∀ f ∈ m.faces, f.length = 12 ∨ f.length = 3) ∧
    (SemiRegularTiling.seven rows cols = some m →
      ∀ f ∈ m.faces, f.length = 6 ∨ f.length = 4 ∨ f.length = 3) ∧
    (SemiRegularTiling.eight rows cols = some m →
      ∀ f ∈ m.faces, f.length = 6 ∨ f.length = 4 ∨ f.length = 12) ∧
    (RegularTiling.triangle rows cols = some m → ∀ f ∈ m.faces, f.length = 3) ∧
    (RegularTiling.square rows cols = some m → ∀ f ∈ m.faces, f.length = 4) ∧
    (RegularTiling.hexagon rows cols = some m → ∀ f ∈ m.faces, f.length = 6) ∧
    (∃ f ∈ facesO (SemiRegularTiling.two 5 4), f.length = 8) ∧
    (∃ f ∈ facesO (SemiRegularTiling.six 9 4), f.length = 12) ∧
    (∃ f ∈ facesO (SemiRegularTiling.eight 10 7), f.length = 12) := by
  refine ⟨?_, ?_, ?_, ?_, ?_, ?_, ?_, ?_, ?_, ?_, ?_, by decide, by decide, by decide⟩
  · intro h f hf
    obtain ⟨-, -, hface⟩ := SemiRegularTiling.one_some h
    obtain ⟨x, y, -, -, -, -, hc⟩ := hface f hf
    exact SemiRegularTiling.oneCell_len f hc
  · intro h f hf
    obtain ⟨-, -, hface⟩ := SemiRegularTiling.two_some h
    rcases hface f hf with ⟨x, y, -, -, -, -, hc⟩ | ⟨x, y, -, -, hc⟩
    · exact Or.inl (SemiRegularTiling.twoCellA_len f hc)
    · exact Or.inr (SemiRegularTiling.twoCellB_len f hc)
  · intro h f hf
    obtain ⟨-, -, hface⟩ := SemiRegularTiling.three_some h
    obtain ⟨x, y, -, -, hc⟩ := hface f hf
    exact SemiRegularTiling.threeCell_len f hc
  · intro h f hf
    obtain ⟨-, -, hface⟩ := SemiRegularTiling.four_some h
    obtain ⟨x, y, -, -, -, -, hc⟩ := hface f hf
    exact SemiRegularTiling.fourCell_len f hc
  · intro h f hf
    obtain ⟨-, -, hface⟩ := SemiRegularTiling.five_some h
    obtain ⟨x, y, -, -, -, hc⟩ := hface f hf
    exact SemiRegularTiling.fiveCell_len f hc
  · intro h f hf
    obtain ⟨-, -, hface⟩ := SemiRegularTiling.six_some h
    obtain ⟨x, y, -, -, -, hc⟩ := hface f hf
    exact SemiRegularTiling.sixCell_len f hc
  · intro h f hf
    obtain ⟨-, -, hface⟩ := SemiRegularTiling.seven_some h
    obtain ⟨x, y, -, -, -, -, hc⟩ := hface f hf
    exact SemiRegularTiling.sevenCell_len f hc
  · intro h f hf
    obtain ⟨-, -, hface⟩ := SemiRegularTiling.eight_some h
    obtain ⟨x, y, -, -, -, -, hc⟩ := hface f hf
    exact SemiRegularTiling.eightCell_len f hc
  · intro h f hf
    obtain ⟨-, -, hface⟩ := RegularTiling.triangle_some h
    obtain ⟨x, y, -, -, hc⟩ := hface f hf
    exact RegularTiling.triangleCell_len f hc
  · intro h f hf
    obtain ⟨-, -, hface⟩ := RegularTiling.square_some h
    obtain ⟨x, y, -, -, hc⟩ := hface f hf
    exact RegularTiling.squareCell_len f hc
  · intro h f hf
    obtain ⟨-, -, hface⟩ := RegularTiling.hexagon_some h
    obtain ⟨x, y, -, -, hc⟩ := hface f hf
    exact RegularTiling.hexagonCell_len f hc

set_option maxRecDepth 40000 in
/-- Witness for the amended C5: the first face of `square(3, 3)` has 4
vertices, and tiling 2 indeed emits an octagon. -/
theorem c5_witness :
    ([0, 1, 4, 3] : List Nat).length = 4 ∧
    ∃ f ∈ facesO (SemiRegularTiling.two 5 4), f.length = 8 :=
  ⟨(c5_amended_face_vertex_counts 3 3
        (mOf (RegularTiling.square 3 3))).2.2.2.2.2.2.2.2.2.1 rfl
      ([0, 1, 4, 3] : List Nat) (by decide),
   (c5_amended_face_vertex_counts 3 3
        (mOf (RegularTiling.square 3 3))).2.2.2.2.2.2.2.2.2.2.2.1⟩

/-- C3 (code behaviour at the claimed inputs): contrary to the claim, the
degenerate dimensions do not yield an empty face list — every generator's
eagerly evaluated u32 range bound `rows - k` underflows at `rows = 0`
(`none` here = arithmetic trap; a debug build panics, a release build wraps
the bound to `2^32 - k` and mis-iterates), and likewise `cols - k`
underflows once the row range is non-empty, and dimensions below a
tiling's margin constants trap as well (e.g. `six(3, 100)`). -/
theorem c3_degenerate_dims_trap :
    SemiRegularTiling.one 0 0 = none ∧
    SemiRegularTiling.two 0 0 = none ∧
    SemiRegularTiling.three 0 0 = none ∧
    SemiRegularTiling.four 0 0 = none ∧
    SemiRegularTiling.five 0 0 = none ∧
    SemiRegularTiling.six 0 0 = none ∧
    SemiRegularTiling.seven 0 0 = none ∧
    SemiRegularTiling.eight 0 0 = none ∧
    RegularTiling.triangle 0 0 = none ∧
    RegularTiling.square 0 0 = none ∧
    RegularTiling.hexagon 0 0 = none ∧
    SemiRegularTiling.one 5 0 = none ∧
    RegularTiling.square 0 100 = none ∧
    SemiRegularTiling.six 3 100 = none := by
  decide

/-- C4: the code has no overflow guard and no OverflowError kind.  At
`rows = 65537`, `cols = 65536` (so `rows * cols > u32::MAX`) the square
generator's face-key arithmetic `(y + 1) * cols` reaches `2^32` at the cell
`(x, y) = (0, 65535)`, i.e. the u32 arithmetic overflows (`none` = trap in a
debug build; a release build wraps silently, producing corrupted keys) —
no `OverflowError` value is ever produced. -/
theorem c4_square_overflow_is_trap_not_error :
    RegularTiling.square 65537 65536 = none := by
  have hcell : [fkey 65536 (0 + 0) (65535 + 0), fkey 65536 (0 + 1) (65535 + 0),
      fkey 65536 (0 + 1) (65535 + 1), fkey 65536 (0 + 0) (65535 + 1)]
      ∈ RegularTiling.squareCell 65536 0 65535 := by
    unfold RegularTiling.squareCell
    simp
  have hmem : [fkey 65536 (0 + 0) (65535 + 0), fkey 65536 (0 + 1) (65535 + 0),
      fkey 65536 (0 + 1) (65535 + 1), fkey 65536 (0 + 0) (65535 + 1)]
      ∈ faceGrid (RegularTiling.squareCell 65536) 0 (65537 - 1) 0 (65536 - 1) :=
    faceGrid_mem_intro (RegularTiling.squareCell 65536) 0 (65537 - 1) 0 (65536 - 1)
      0 65535 _ (by omega) (by omega) (by omega) (by omega) hcell
  have hko : keysOK (faceGrid (RegularTiling.squareCell 65536) 0 (65537 - 1)
      0 (65536 - 1)) = false := by
    cases hb : keysOK (faceGrid (RegularTiling.squareCell 65536) 0 (65537 - 1)
        0 (65536 - 1))
    · rfl
    · exfalso
      have hall := List.all_eq_true.1 hb
      have h2 := List.all_eq_true.1 (hall _ hmem) (fkey 65536 (0 + 0) (65535 + 1))
        (by simp)
      rw [decide_eq_true_iff] at h2
      unfold fkey U32SIZE at h2
      omega
  unfold RegularTiling.square
  rw [if_neg (by omega), if_neg (by omega), if_neg (by omega)]
  exact mkMesh_none hko

set_option maxRecDepth 40000 in
/-- C8: `RegularTiling::square(3, 3)` yields exactly the 9 points at integer
coordinates (0,0) … (2,2) (row-major) and exactly 4 unit-square faces, the
first being `[0, 1, 4, 3]`. -/
theorem c8_square_3_3 :
    RegularTiling.square 3 3 = some
      ⟨("SQUARE"),
       [(0, 0), (1, 0), (2, 0), (0, 1), (1, 1), (2, 1), (0, 2), (1, 2), (2, 2)],
       [[0, 1, 4, 3], [1, 2, 5, 4], [3, 4, 7, 6], [4, 5, 8, 7]]⟩ := by
  decide

set_option maxRecDepth 40000 in
/-- C9: `RegularTiling::triangle(2, 2)` succeeds and yields exactly 4 points
(the lattice points of cells (0,0), (1,0), (0,1), (1,1) in row-major order)
and exactly the two triangular faces `[0, 1, 2]` and `[1, 3, 2]`
(flat key `x + y*2`). -/
theorem c9_triangle_2_2 :
    RegularTiling.triangle 2 2 ≠ none ∧
    (mOf (RegularTiling.triangle 2 2)).points
      = [RegularTiling.trianglePoint 0 0, RegularTiling.trianglePoint 1 0,
         RegularTiling.trianglePoint 0 1, RegularTiling.trianglePoint 1 1] ∧
    (mOf (RegularTiling.triangle 2 2)).points.length = 4 ∧
    (mOf (RegularTiling.triangle 2 2)).faces = [[0, 1, 2], [1, 3, 2]] := by
  refine ⟨by decide, rfl, by decide, by decide⟩

/- ## The obj serializer (`to_obj`, behind the `obj` feature)

`to_obj` writes into an in-memory `Vec<u8>` (`let mut file = Vec::new()`);
the `io::Write` implementation for `Vec<u8>` never returns an error, so every
`?` in the source propagates nothing and the function always returns `Ok`.
It is therefore modelled as a total function.  A written line is abstracted
by its kind and payload: the object line `o <name>-tiling`, one `v <x> <y> 0`
line per point (the constant `z = 0` and the decimal formatting of the f32
coordinates are not modelled), and one `f` line per face whose keys are
emitted 1-based (`vertex_index + 1`), in face order or reversed according to
`reverse_face_winding`. -/

inductive ObjLine where
  | objectName (s : String)
  | vertexLine (p : Pt)
  | faceLine (keys : List Nat)

/-- Recognizer for the `o <name>-tiling` line. -/
def isNameLine : ObjLine → Bool
  | ObjLine.objectName _ => true
  | _ => false

/-- Recognizer for a `v <x> <y> 0` line. -/
def isVertexLine : ObjLine → Bool
  | ObjLine.vertexLine _ => true
  | _ => false

/-- Recognizer for an `f <k+1> …` line. -/
def isFaceLine : ObjLine → Bool
  | ObjLine.faceLine _ => true
  | _ => false

/-- The 1-based key list of a face line. -/
def lineKeys : ObjLine → Option (List Nat)
  | ObjLine.faceLine ks => some ks
  | _ => none

/-- `to_obj(&self, reverse_face_winding: bool)` of the source, one `ObjLine`
per written line. -/
def to_obj (m : Mesh) (reverse_face_winding : Bool) : List ObjLine :=
  [ObjLine.objectName (m.name ++ ("-tiling"))]
  ++ m.points.map ObjLine.vertexLine
  ++ (if reverse_face_winding then
        m.faces.map (fun face => ObjLine.faceLine (face.reverse.map (fun k => k + 1)))
      else
        m.faces.map (fun face => ObjLine.faceLine (face.map (fun k => k + 1))))

theorem filterMap_none_eq_nil {α β : Type} (l : List α) :
    l.filterMap (fun _ => (none : Option β)) = [] := by
  induction l with
  | nil => rfl
  | cons a l ih => simp [List.filterMap_cons, ih]

theorem filterMap_some_eq_map {α β : Type} (g : α → β) (l : List α) :
    l.filterMap (fun a => some (g a)) = l.map g := by
  induction l with
  | nil => rfl
  | cons a l ih => simp [List.filterMap_cons, ih]

/-- C10: `to_obj` (modelled total: its in-memory `Vec<u8>` sink cannot fail,
so the I/O-error branch of its `Result` is unreachable) emits exactly one
object-name line, one vertex line per point and one face line per face; the
face lines carry each face's keys 1-based, in order or reversed according to
the flag; and reversing never changes which keys appear on a face line. -/
theorem c10_to_obj_total_structure (m : Mesh) (b : Bool) :
    (to_obj m b).countP isNameLine = 1 ∧
    (to_obj m b).countP isVertexLine = m.points.length ∧
    (to_obj m b).countP isFaceLine = m.faces.length ∧
    (to_obj m b).filterMap lineKeys
      = m.faces.map (fun f => (if b then f.reverse else f).map (fun k => k + 1)) ∧
    (∀ f : List Nat, ∀ k : Nat,
      k ∈ (if b then f.reverse else f).map (fun k2 => k2 + 1) ↔
        k ∈ f.map (fun k2 => k2 + 1)) := by
  cases b <;>
    refine ⟨?_, ?_, ?_, ?_, ?_⟩ <;>
    simp [to_obj, List.countP_append, List.countP_map, List.filterMap_append,
      List.filterMap_map, isNameLine, isVertexLine, isFaceLine, lineKeys,
      List.countP_cons, Function.comp_def, List.countP_true, List.countP_false,
      filterMap_none_eq_nil, filterMap_some_eq_map,
      List.mem_reverse, List.mem_map]
